import Mathlib

/-!
# Verification of the AgentWallet contract

Shallow embedding of the Solidity contract `AgentWallet` (together with its
`Ownable` and `ReentrancyGuard` mixins and the canonical ERC20 token used by
the repository's test suite), found in the repository source.

Modelling conventions:
* `address` is `Nat`, with `0` playing the role of the zero address.
* Solidity mappings are association lists read through `getD` (absent keys
  read as the zero value of the value type, exactly as in the EVM) and
  written through `setK`.
* `uint256` arithmetic is modelled on `Nat`.  All subtractions performed by
  the contract are behind explicit balance/allowance checks, so they never
  underflow; Solidity 0.8 checked arithmetic reverts (it never wraps), and no
  quantity handled by the contract approaches `2^256`.  The `uint64` casts
  that the source performs (`uint64(block.timestamp)`,
  `uint64(block.timestamp + sub.periodSeconds)`) are modelled with an
  explicit `% 2^64`.
* Every external (public) function is a map `World → Except Err World`;
  `Except.error` models `revert`.  The EVM transaction boundary, which rolls
  every state change back when the frame reverts, is `applyOp`: on an error
  the committed state is the state before the call.
* `block.timestamp` and `msg.sender` are explicit parameters (`now`,
  `sender`).
* The merchant callback `merchant.call(data)` runs untrusted code.  It is
  modelled as an oracle `MCall` that receives the world at the moment of the
  call and returns a success flag together with the world it leaves behind.
  Where a theorem needs the callback to be benign it states that hypothesis
  explicitly (in reality the callback can only alter wallet state by
  re-entering the contract's public entry points).
* Events are accumulated in `World.events` (and roll back with the rest of
  the state on revert, as on the EVM).
-/

set_option linter.unusedVariables false

deriving instance DecidableEq for Except

namespace AgentWallet

/-- Addresses; `0` is the zero address. -/
abbrev Addr := Nat

/-- Mapping read with default (a Solidity mapping reads absent keys as zero). -/
def getD {κ α : Type} [DecidableEq κ] (m : List (κ × α)) (k : κ) (d : α) : α :=
  match m with
  | [] => d
  | (k', v) :: rest => if k = k' then v else getD rest k d

/-- Mapping write. -/
def setK {κ α : Type} [DecidableEq κ] (m : List (κ × α)) (k : κ) (v : α) : List (κ × α) :=
  match m with
  | [] => [(k, v)]
  | (k', v') :: rest => if k = k' then (k, v) :: rest else (k', v') :: setK rest k v

theorem getD_setK_same {κ α : Type} [DecidableEq κ] (m : List (κ × α)) (k : κ) (v : α) (d : α) :
    getD (setK m k v) k d = v := by
  induction m with
  | nil => simp [getD, setK]
  | cons hd tl ih =>
    obtain ⟨k', v'⟩ := hd
    by_cases h : k = k' <;> simp [getD, setK, h, ih]

theorem getD_setK_ne {κ α : Type} [DecidableEq κ] (m : List (κ × α)) (k k' : κ) (v : α) (d : α)
    (h : k' ≠ k) : getD (setK m k v) k' d = getD m k' d := by
  induction m with
  | nil => simp [getD, setK, h]
  | cons hd tl ih =>
    obtain ⟨k₀, v₀⟩ := hd
    by_cases hk : k = k₀
    · subst hk
      simp [getD, setK, h]
    · by_cases hk' : k' = k₀ <;> simp [getD, setK, hk, hk', ih]

theorem mem_setK {κ α : Type} [DecidableEq κ] (m : List (κ × α)) (k : κ) (v : α)
    (pr : κ × α) (h : pr ∈ setK m k v) : pr = (k, v) ∨ pr ∈ m := by
  induction m with
  | nil => simpa [setK] using h
  | cons hd tl ih =>
    obtain ⟨k₀, v₀⟩ := hd
    by_cases hk : k = k₀
    · subst hk
      simp [setK] at h
      rcases h with h | h
      · exact Or.inl (by simp [h])
      · exact Or.inr (by simp [h])
    · simp [setK, hk] at h
      rcases h with h | h
      · exact Or.inr (by simp [h])
      · rcases ih h with h' | h'
        · exact Or.inl h'
        · exact Or.inr (by simp [h'])

theorem getD_mem {κ α : Type} [DecidableEq κ] (m : List (κ × α)) (k : κ) (d : α) :
    (k, getD m k d) ∈ m ∨ getD m k d = d := by
  induction m with
  | nil => simp [getD]
  | cons hd tl ih =>
    obtain ⟨k₀, v₀⟩ := hd
    by_cases hk : k = k₀
    · subst hk
      simp [getD]
    · have heq : getD ((k₀, v₀) :: tl) k d = getD tl k d := by simp [getD, hk]
      rw [heq]
      rcases ih with h | h
      · exact Or.inl (List.mem_cons_of_mem _ h)
      · exact Or.inr h

/-- The error taxonomy: the contract's custom errors, its `require` failures
(reentrancy latch, token-transfer failures, merchant-call failure, the
subscription `require` messages), one kind per distinct failure. -/
inductive Err
  | AgentNotFound
  | NotAgentOwner
  | NotAgent
  | PolicyInactive
  | MerchantNotAllowed
  | PerTxLimitExceeded
  | DailyLimitExceeded
  | InsufficientBalance
  | InvalidAddress
  | InvalidAmount
  | InvalidLimits
  | ExternalTransferFailed
  | MerchantCallFailed
  | ReentrantCall
  | SubscriptionInactive
  | SubscriptionNotFound
  | TooEarly
deriving DecidableEq, Repr

/-- The contract's events. -/
inductive Event
  | AgentCreated (agentId owner agent : Nat)
  | AgentUpdated (agentId newAgent : Nat)
  | AgentPaused (agentId : Nat) (active : Bool)
  | PolicyLimitsUpdated (agentId dailyLimit perTxLimit : Nat)
  | MerchantWhitelistUpdated (agentId merchant : Nat) (allowed : Bool)
  | Deposit (agentId amount newBalance : Nat)
  | Withdraw (agentId amount newBalance : Nat)
  | EmergencyWithdraw (agentId amount : Nat)
  | AgentPayment (agentId merchant amount : Nat) (data : List Nat)
  | DailySpendReset (agentId : Nat)
  | SubscriptionCreated (agentId subscriptionId merchant : Nat)
  | SubscriptionExecuted (agentId subscriptionId amount : Nat)
  | SubscriptionStatusChanged (agentId subscriptionId : Nat) (active : Bool)
deriving DecidableEq, Repr

/-- source: `struct Policy`. -/
structure Policy where
  active : Bool
  dailyLimit : Nat
  perTxLimit : Nat
  spentToday : Nat
  lastReset : Nat
deriving DecidableEq, Repr

/-- The zero value of `Policy` (what an absent mapping entry reads as). -/
def Policy.zero : Policy := ⟨false, 0, 0, 0, 0⟩

/-- source: `struct AgentConfig`. -/
structure AgentConfig where
  owner : Addr
  agent : Addr
  policy : Policy
deriving DecidableEq, Repr

def AgentConfig.zero : AgentConfig := ⟨0, 0, Policy.zero⟩

/-- source: `struct Subscription`. -/
structure Subscription where
  merchant : Addr
  amountPerPeriod : Nat
  periodSeconds : Nat
  nextExecutionAt : Nat
  active : Bool
deriving DecidableEq, Repr

def Subscription.zero : Subscription := ⟨0, 0, 0, 0, false⟩

/-- The ERC20 token state (balances and allowances), as implemented by the
repository's canonical test token. -/
structure ERC20 where
  balances : List (Addr × Nat)
  allowances : List ((Addr × Addr) × Nat)
deriving DecidableEq, Repr

def ERC20.balanceOf (t : ERC20) (a : Addr) : Nat := getD t.balances a 0

def ERC20.allowance (t : ERC20) (o s : Addr) : Nat := getD t.allowances (o, s) 0

/-- ERC20 `transfer` issued by `fr`: moves `amount` from `fr` to `dst`,
failing (reverting) when the balance is insufficient. -/
def ERC20.transfer (t : ERC20) (fr dst amount : Addr) : Option ERC20 :=
  if t.balanceOf fr < amount then none
  else
    let b1 := setK t.balances fr (t.balanceOf fr - amount)
    some { t with balances := setK b1 dst (getD b1 dst 0 + amount) }

/-- ERC20 `transferFrom` issued by `caller`: spends `caller`'s allowance from
`fr`, then moves the funds. -/
def ERC20.transferFrom (t : ERC20) (caller fr dst amount : Addr) : Option ERC20 :=
  if t.allowance fr caller < amount then none
  else
    let t1 : ERC20 := { t with allowances := setK t.allowances (fr, caller) (t.allowance fr caller - amount) }
    t1.transfer fr dst amount

/-- ERC20 `approve` issued by `o`: sets the allowance, always succeeds. -/
def ERC20.approve (t : ERC20) (o s amount : Addr) : ERC20 :=
  { t with allowances := setK t.allowances (o, s) amount }

/-- The complete storage of the deployed contract, plus the token state, plus
the event log. -/
structure World where
  /-- `address(this)`. -/
  self : Addr
  /-- `Ownable._owner` (set at deployment; unused by the agent operations). -/
  platformOwner : Addr
  /-- `ReentrancyGuard._status`: 1 = not entered, 2 = entered. -/
  status : Nat
  nextAgentId : Nat
  agents : List (Nat × AgentConfig)
  merchantWhitelist : List ((Nat × Addr) × Bool)
  balances : List (Nat × Nat)
  subscriptions : List ((Nat × Nat) × Subscription)
  nextSubscriptionId : List (Nat × Nat)
  usdc : ERC20
  events : List Event
deriving DecidableEq, Repr

def World.agentCfg (w : World) (agentId : Nat) : AgentConfig := getD w.agents agentId AgentConfig.zero

def World.bal (w : World) (agentId : Nat) : Nat := getD w.balances agentId 0

def World.wl (w : World) (agentId : Nat) (merchant : Addr) : Bool :=
  getD w.merchantWhitelist (agentId, merchant) false

def World.sub (w : World) (agentId subId : Nat) : Subscription :=
  getD w.subscriptions (agentId, subId) Subscription.zero

def World.emit (w : World) (e : Event) : World := { w with events := w.events ++ [e] }

/-- The merchant callback (`merchant.call(data)`): untrusted external code.
It sees the world at the time of the call and produces the success flag
together with the world it leaves behind. -/
def MCall : Type := Addr → List Nat → World → Bool × World

def SECONDS_PER_DAY : Nat := 86400

def UINT64_MOD : Nat := 2 ^ 64

/-- source: `_resetIfNeeded` — if a full day has elapsed since `lastReset`,
zero `spentToday`, restamp `lastReset` and emit `DailySpendReset`. -/
def resetIfNeeded (now agentId : Nat) (w : World) : World :=
  let cfg := w.agentCfg agentId
  if cfg.policy.lastReset + SECONDS_PER_DAY ≤ now then
    let p1 : Policy := { cfg.policy with spentToday := 0, lastReset := now % UINT64_MOD }
    let w1 : World := { w with agents := setK w.agents agentId { cfg with policy := p1 } }
    w1.emit (.DailySpendReset agentId)
  else w

/-- source: `_validateLimits` — both limits nonzero and `perTxLimit ≤ dailyLimit`. -/
def validateLimits (dailyLimit perTxLimit : Nat) : Option Err :=
  if dailyLimit = 0 ∨ perTxLimit = 0 then some .InvalidLimits
  else if dailyLimit < perTxLimit then some .InvalidLimits
  else none

/-- source: `createAgent`. -/
def createAgent (sender now agentAddress dailyLimit perTxLimit : Nat) (w : World) :
    Except Err World :=
  if agentAddress = 0 then .error .InvalidAddress
  else match validateLimits dailyLimit perTxLimit with
  | some e => .error e
  | none =>
    let agentId := w.nextAgentId + 1
    let policy : Policy :=
      { active := true, dailyLimit := dailyLimit, perTxLimit := perTxLimit,
        spentToday := 0, lastReset := now % UINT64_MOD }
    let cfg : AgentConfig := { owner := sender, agent := agentAddress, policy := policy }
    let w1 : World := { w with nextAgentId := agentId, agents := setK w.agents agentId cfg }
    .ok (w1.emit (.AgentCreated agentId sender agentAddress))

/-- source: `setAgentAddress`. -/
def setAgentAddress (sender agentId newAgent : Nat) (w : World) : Except Err World :=
  if (w.agentCfg agentId).owner = 0 then .error .AgentNotFound
  else if (w.agentCfg agentId).owner ≠ sender then .error .NotAgentOwner
  else if newAgent = 0 then .error .InvalidAddress
  else
    let cfg : AgentConfig := { w.agentCfg agentId with agent := newAgent }
    let w1 : World := { w with agents := setK w.agents agentId cfg }
    .ok (w1.emit (.AgentUpdated agentId newAgent))

/-- source: `deposit` (modifier order: `agentExists`, `onlyAgentOwner`,
`nonReentrant`, then the body). -/
def deposit (sender agentId amount : Nat) (w : World) : Except Err World :=
  if (w.agentCfg agentId).owner = 0 then .error .AgentNotFound
  else if (w.agentCfg agentId).owner ≠ sender then .error .NotAgentOwner
  else if w.status = 2 then .error .ReentrantCall
  else
    let w : World := { w with status := 2 }
    if amount = 0 then .error .InvalidAmount
    else match w.usdc.transferFrom w.self sender w.self amount with
    | none => .error .ExternalTransferFailed
    | some t1 =>
      let newBal := w.bal agentId + amount
      let w1 : World := { w with usdc := t1, balances := setK w.balances agentId newBal }
      let w2 : World := w1.emit (.Deposit agentId amount newBal)
      .ok { w2 with status := 1 }

/-- source: `withdraw`. -/
def withdraw (sender agentId amount : Nat) (w : World) : Except Err World :=
  if (w.agentCfg agentId).owner = 0 then .error .AgentNotFound
  else if (w.agentCfg agentId).owner ≠ sender then .error .NotAgentOwner
  else if w.status = 2 then .error .ReentrantCall
  else
    let w : World := { w with status := 2 }
    if amount = 0 then .error .InvalidAmount
    else if w.bal agentId < amount then .error .InsufficientBalance
    else
      let newBal := w.bal agentId - amount
      let w1 : World := { w with balances := setK w.balances agentId newBal }
      match w1.usdc.transfer w1.self sender amount with
      | none => .error .ExternalTransferFailed
      | some t1 =>
        let w2 : World := { w1 with usdc := t1 }
        let w3 : World := w2.emit (.Withdraw agentId amount newBal)
        .ok { w3 with status := 1 }

/-- source: `emergencyWithdraw` — unconditional full drain to the owner. -/
def emergencyWithdraw (sender agentId : Nat) (w : World) : Except Err World :=
  if (w.agentCfg agentId).owner = 0 then .error .AgentNotFound
  else if (w.agentCfg agentId).owner ≠ sender then .error .NotAgentOwner
  else if w.status = 2 then .error .ReentrantCall
  else
    let w : World := { w with status := 2 }
    let balance := w.bal agentId
    let w1 : World := { w with balances := setK w.balances agentId 0 }
    match w1.usdc.transfer w1.self sender balance with
    | none => .error .ExternalTransferFailed
    | some t1 =>
      let w2 : World := { w1 with usdc := t1 }
      let w3 : World := w2.emit (.EmergencyWithdraw agentId balance)
      .ok { w3 with status := 1 }

/-- source: `setPolicyActive`. -/
def setPolicyActive (sender agentId : Nat) (active : Bool) (w : World) : Except Err World :=
  if (w.agentCfg agentId).owner = 0 then .error .AgentNotFound
  else if (w.agentCfg agentId).owner ≠ sender then .error .NotAgentOwner
  else
    let cfg := w.agentCfg agentId
    let p1 : Policy := { cfg.policy with active := active }
    let w1 : World := { w with agents := setK w.agents agentId { cfg with policy := p1 } }
    .ok (w1.emit (.AgentPaused agentId active))

/-- The part of `updateLimits` that follows the daily-window reset: store the
new limits and clamp `spentToday` down to the new daily limit if it exceeds it. -/
def applyNewLimits (agentId newDailyLimit newPerTxLimit : Nat) (w : World) : World :=
  let cfg := w.agentCfg agentId
  let p1 : Policy := { cfg.policy with dailyLimit := newDailyLimit, perTxLimit := newPerTxLimit }
  let p2 : Policy := if newDailyLimit < p1.spentToday then { p1 with spentToday := newDailyLimit } else p1
  let w1 : World := { w with agents := setK w.agents agentId { cfg with policy := p2 } }
  w1.emit (.PolicyLimitsUpdated agentId newDailyLimit newPerTxLimit)

/-- source: `updateLimits`. -/
def updateLimits (sender now agentId newDailyLimit newPerTxLimit : Nat) (w : World) :
    Except Err World :=
  if (w.agentCfg agentId).owner = 0 then .error .AgentNotFound
  else if (w.agentCfg agentId).owner ≠ sender then .error .NotAgentOwner
  else match validateLimits newDailyLimit newPerTxLimit with
  | some e => .error e
  | none => .ok (applyNewLimits agentId newDailyLimit newPerTxLimit (resetIfNeeded now agentId w))

/-- source: `setMerchantWhitelist`. -/
def setMerchantWhitelist (sender agentId merchant : Nat) (allowed : Bool) (w : World) :
    Except Err World :=
  if (w.agentCfg agentId).owner = 0 then .error .AgentNotFound
  else if (w.agentCfg agentId).owner ≠ sender then .error .NotAgentOwner
  else if merchant = 0 then .error .InvalidAddress
  else
    let w1 : World := { w with merchantWhitelist := setK w.merchantWhitelist (agentId, merchant) allowed }
    .ok (w1.emit (.MerchantWhitelistUpdated agentId merchant allowed))

/-- Step 7 of the payment pipeline: debit the agent's ledger balance and add
the amount to `spentToday` (source lines `_balances[agentId] -= amount;
policy.spentToday += amount;`). -/
def commitSpend (agentId amount : Nat) (w : World) : World :=
  let w1 : World := { w with balances := setK w.balances agentId (w.bal agentId - amount) }
  let cfg := w1.agentCfg agentId
  let p1 : Policy := { cfg.policy with spentToday := cfg.policy.spentToday + amount }
  { w1 with agents := setK w1.agents agentId { cfg with policy := p1 } }

/-- Settlement, direct branch (`data.length == 0`): push the amount to the
merchant through the token. -/
def settleDirect (merchant amount : Nat) (w : World) : Except Err World :=
  match w.usdc.transfer w.self merchant amount with
  | none => .error .ExternalTransferFailed
  | some t1 => .ok { w with usdc := t1 }

/-- Settlement, callback branch, first step (source: `if
(usdc.allowance(address(this), merchant) != 0) require(usdc.approve(merchant,
0), ...)`): revoke any nonzero stale allowance to the merchant.  The token's
`approve` always succeeds. -/
def revokeStale (merchant : Nat) (w : World) : World :=
  if w.usdc.allowance w.self merchant ≠ 0
    then { w with usdc := w.usdc.approve w.self merchant 0 } else w

/-- Settlement, callback branch, second step (source:
`require(usdc.approve(merchant, amount), ...)` after the stale-allowance
revocation): the world at the moment control is handed to the merchant. -/
def grantWorld (merchant amount : Nat) (w : World) : World :=
  let w1 := revokeStale merchant w
  { w1 with usdc := w1.usdc.approve w1.self merchant amount }

/-- Settlement, callback branch (`data.length != 0`): revoke any nonzero stale
allowance to the merchant, grant an allowance of exactly `amount`, then invoke
the merchant with the caller-supplied payload. -/
def settleCallback (merchant amount : Nat) (data : List Nat) (mcall : MCall) (w : World) :
    Except Err World :=
  match mcall merchant data (grantWorld merchant amount w) with
  | (false, _) => .error .MerchantCallFailed
  | (true, w3) => .ok w3

/-- `_processPayment` after its initial `_resetIfNeeded` call: the ordered
policy checks, the commit, the settlement branch and the payment event. -/
def processPaymentChecked (now agentId merchant amount : Nat) (data : List Nat) (mcall : MCall)
    (w : World) : Except Err World :=
  let policy := (w.agentCfg agentId).policy
  if policy.active = false then .error .PolicyInactive
  else if w.wl agentId merchant = false then .error .MerchantNotAllowed
  else if policy.perTxLimit < amount then .error .PerTxLimitExceeded
  else if policy.dailyLimit < policy.spentToday + amount then .error .DailyLimitExceeded
  else if w.bal agentId < amount then .error .InsufficientBalance
  else
    let wc := commitSpend agentId amount w
    match (if data.length = 0 then settleDirect merchant amount wc
           else settleCallback merchant amount data mcall wc) with
    | .error e => .error e
    | .ok w1 => .ok (w1.emit (.AgentPayment agentId merchant amount data))

/-- source: `_processPayment`: first `_resetIfNeeded`, then checks, commit and
settlement. -/
def processPayment (now agentId merchant amount : Nat) (data : List Nat) (mcall : MCall)
    (w : World) : Except Err World :=
  processPaymentChecked now agentId merchant amount data mcall (resetIfNeeded now agentId w)

/-- source: `pay` (modifier order: `agentExists`, `onlyAgent`, `nonReentrant`,
then the body). -/
def pay (sender now agentId merchant amount : Nat) (data : List Nat) (mcall : MCall)
    (w : World) : Except Err World :=
  if (w.agentCfg agentId).owner = 0 then .error .AgentNotFound
  else if (w.agentCfg agentId).agent ≠ sender then .error .NotAgent
  else if w.status = 2 then .error .ReentrantCall
  else
    let w : World := { w with status := 2 }
    if merchant = 0 then .error .InvalidAddress
    else if amount = 0 then .error .InvalidAmount
    else match processPayment now agentId merchant amount data mcall w with
    | .error e => .error e
    | .ok w1 =>
      let w2 : World := { w1 with status := 1 }
      .ok w2

/-- source: `createSubscription`. -/
def createSubscription (sender now agentId merchant amountPerPeriod periodSeconds
    firstExecutionAt : Nat) (w : World) : Except Err World :=
  if (w.agentCfg agentId).owner = 0 then .error .AgentNotFound
  else if (w.agentCfg agentId).owner ≠ sender then .error .NotAgentOwner
  else if merchant = 0 then .error .InvalidAddress
  else if w.wl agentId merchant = false then .error .MerchantNotAllowed
  else if amountPerPeriod = 0 then .error .InvalidAmount
  else if periodSeconds < 60 then .error .InvalidAmount
  else
    let subscriptionId := getD w.nextSubscriptionId agentId 0 + 1
    let sub : Subscription :=
      { merchant := merchant, amountPerPeriod := amountPerPeriod, periodSeconds := periodSeconds,
        nextExecutionAt := if firstExecutionAt = 0 then now % UINT64_MOD else firstExecutionAt,
        active := true }
    let nsi := setK w.nextSubscriptionId agentId subscriptionId
    let subs := setK w.subscriptions (agentId, subscriptionId) sub
    let w1 : World := { w with nextSubscriptionId := nsi, subscriptions := subs }
    .ok (w1.emit (.SubscriptionCreated agentId subscriptionId merchant))

/-- source: `setSubscriptionStatus`. -/
def setSubscriptionStatus (sender agentId subscriptionId : Nat) (active : Bool) (w : World) :
    Except Err World :=
  if (w.agentCfg agentId).owner = 0 then .error .AgentNotFound
  else if (w.agentCfg agentId).owner ≠ sender then .error .NotAgentOwner
  else if (w.sub agentId subscriptionId).merchant = 0 then .error .SubscriptionNotFound
  else
    let sub := w.sub agentId subscriptionId
    let sub1 : Subscription := { sub with active := active }
    let w1 : World := { w with subscriptions := setK w.subscriptions (agentId, subscriptionId) sub1 }
    .ok (w1.emit (.SubscriptionStatusChanged agentId subscriptionId active))

/-- source: `executeSubscription` (modifier order: `agentExists`,
`nonReentrant`; note there is no sender check).  The `nextExecutionAt` advance
happens strictly before the delegation to `_processPayment`. -/
def executeSubscription (sender now agentId subscriptionId : Nat) (data : List Nat)
    (mcall : MCall) (w : World) : Except Err World :=
  if (w.agentCfg agentId).owner = 0 then .error .AgentNotFound
  else if w.status = 2 then .error .ReentrantCall
  else
    let w : World := { w with status := 2 }
    let sub := w.sub agentId subscriptionId
    if sub.active = false then .error .SubscriptionInactive
    else if sub.merchant = 0 then .error .SubscriptionNotFound
    else if now < sub.nextExecutionAt then .error .TooEarly
    else
      let sub1 : Subscription := { sub with nextExecutionAt := (now + sub.periodSeconds) % UINT64_MOD }
      let w1 : World := { w with subscriptions := setK w.subscriptions (agentId, subscriptionId) sub1 }
      match processPayment now agentId sub.merchant sub.amountPerPeriod data mcall w1 with
      | .error e => .error e
      | .ok w2 =>
        let w3 : World := w2.emit (.SubscriptionExecuted agentId subscriptionId
          ((w2.sub agentId subscriptionId).amountPerPeriod))
        .ok { w3 with status := 1 }

/-- source: view `agent`. -/
def agentView (agentId : Nat) (w : World) : Except Err AgentConfig :=
  if (w.agentCfg agentId).owner = 0 then .error .AgentNotFound
  else .ok (w.agentCfg agentId)

/-- source: view `balanceOf`. -/
def balanceOfView (agentId : Nat) (w : World) : Except Err Nat :=
  if (w.agentCfg agentId).owner = 0 then .error .AgentNotFound
  else .ok (w.bal agentId)

/-- source: view `isMerchantWhitelisted`. -/
def isMerchantWhitelistedView (agentId merchant : Nat) (w : World) : Except Err Bool :=
  if (w.agentCfg agentId).owner = 0 then .error .AgentNotFound
  else .ok (w.wl agentId merchant)

/-- source: view `spentToday` — window-adjusted read. -/
def spentTodayView (now agentId : Nat) (w : World) : Except Err Nat :=
  if (w.agentCfg agentId).owner = 0 then .error .AgentNotFound
  else
    let policy := (w.agentCfg agentId).policy
    if policy.lastReset + SECONDS_PER_DAY ≤ now then .ok 0
    else .ok policy.spentToday

/-- source: view `subscription`. -/
def subscriptionView (agentId subscriptionId : Nat) (w : World) : Except Err Subscription :=
  if (w.agentCfg agentId).owner = 0 then .error .AgentNotFound
  else .ok (w.sub agentId subscriptionId)

/-- source: view `nextSubscriptionId`. -/
def nextSubscriptionIdView (agentId : Nat) (w : World) : Except Err Nat :=
  if (w.agentCfg agentId).owner = 0 then .error .AgentNotFound
  else .ok (getD w.nextSubscriptionId agentId 0)

/-- One public state-mutating call, with its authenticated caller and the
block timestamp. -/
inductive Op
  | createAgent (sender now agentAddress dailyLimit perTxLimit : Nat)
  | setAgentAddress (sender agentId newAgent : Nat)
  | deposit (sender agentId amount : Nat)
  | withdraw (sender agentId amount : Nat)
  | emergencyWithdraw (sender agentId : Nat)
  | setPolicyActive (sender agentId : Nat) (active : Bool)
  | updateLimits (sender now agentId newDailyLimit newPerTxLimit : Nat)
  | setMerchantWhitelist (sender agentId merchant : Nat) (allowed : Bool)
  | pay (sender now agentId merchant amount : Nat) (data : List Nat) (mcall : MCall)
  | createSubscription (sender now agentId merchant amountPerPeriod periodSeconds firstExecutionAt : Nat)
  | setSubscriptionStatus (sender agentId subscriptionId : Nat) (active : Bool)
  | executeSubscription (sender now agentId subscriptionId : Nat) (data : List Nat) (mcall : MCall)

/-- The execution of the call frame (before the transaction boundary). -/
def Op.inner : Op → World → Except Err World
  | .createAgent s n a dl pt => AgentWallet.createAgent s n a dl pt
  | .setAgentAddress s aid na => AgentWallet.setAgentAddress s aid na
  | .deposit s aid amt => AgentWallet.deposit s aid amt
  | .withdraw s aid amt => AgentWallet.withdraw s aid amt
  | .emergencyWithdraw s aid => AgentWallet.emergencyWithdraw s aid
  | .setPolicyActive s aid b => AgentWallet.setPolicyActive s aid b
  | .updateLimits s n aid dl pt => AgentWallet.updateLimits s n aid dl pt
  | .setMerchantWhitelist s aid m b => AgentWallet.setMerchantWhitelist s aid m b
  | .pay s n aid m amt d mc => AgentWallet.pay s n aid m amt d mc
  | .createSubscription s n aid m app ps fe => AgentWallet.createSubscription s n aid m app ps fe
  | .setSubscriptionStatus s aid sid b => AgentWallet.setSubscriptionStatus s aid sid b
  | .executeSubscription s n aid sid d mc => AgentWallet.executeSubscription s n aid sid d mc

/-- The EVM transaction boundary: a reverting frame rolls every state change
back, so the committed state on an error is the state before the call. -/
def applyOp (op : Op) (w : World) : World × Option Err :=
  match op.inner w with
  | .ok w' => (w', none)
  | .error e => (w, some e)

def stepWorld (w : World) (op : Op) : World := (applyOp op w).1

def runOps (ops : List Op) (w : World) : World := ops.foldl stepWorld w

/-- The storage of a freshly deployed contract (constructor: reentrancy
status not-entered, `nextAgentId = 0`, all mappings empty). -/
def initialState (self deployer : Addr) (tok : ERC20) : World :=
  { self := self, platformOwner := deployer, status := 1, nextAgentId := 0,
    agents := [], merchantWhitelist := [], balances := [], subscriptions := [],
    nextSubscriptionId := [], usdc := tok, events := [] }

/-- The identity merchant callback (succeeds, changes nothing). -/
def mcId : MCall := fun _ _ w => (true, w)

/-- A concrete policy used by witnesses. -/
def polBase : Policy :=
  { active := true, dailyLimit := 1000, perTxLimit := 500, spentToday := 0, lastReset := 100 }

/-- A concrete agent record (owner 7, delegate 5) used by witnesses. -/
def cfgBase : AgentConfig := { owner := 7, agent := 5, policy := polBase }

/-- A concrete subscription used by witnesses. -/
def subBase : Subscription :=
  { merchant := 8, amountPerPeriod := 50, periodSeconds := 60, nextExecutionAt := 100, active := true }

/-- A concrete token state used by witnesses: the wallet contract (address 1)
holds 600 units, the owner (address 7) holds 1000 and has pre-authorized the
contract to pull 300. -/
def tokBase : ERC20 := { balances := [(1, 600), (7, 1000)], allowances := [((7, 1), 300)] }

/-- A concrete deployed state used by witnesses: one agent (id 1), merchant 8
whitelisted, ledger balance 600, one active subscription. -/
def Wbase : World where
  self := 1
  platformOwner := 9
  status := 1
  nextAgentId := 1
  agents := [(1, cfgBase)]
  merchantWhitelist := [((1, 8), true)]
  balances := [(1, 600)]
  subscriptions := [((1, 1), subBase)]
  nextSubscriptionId := [(1, 1)]
  usdc := tokBase
  events := []

/-- The state on which `_processPayment`'s checks run during `pay`: the
reentrancy latch has been set by `nonReentrant` and the daily-window reset
has been applied. -/
def payEntry (now agentId : Nat) (w : World) : World :=
  resetIfNeeded now agentId { w with status := 2 }

/-- What `pay` does to the world returned by a successful merchant callback:
emit the payment event and release the reentrancy latch. -/
def finishPay (agentId merchant amount : Nat) (data : List Nat) (w3 : World) : World :=
  let w4 := w3.emit (.AgentPayment agentId merchant amount data)
  { w4 with status := 1 }

/-- The world handed to the merchant callback by `pay`: latch set, window
reset applied, spend committed, stale allowance revoked, exact allowance
granted. -/
def callbackWorld (now agentId merchant amount : Nat) (w : World) : World :=
  grantWorld merchant amount (commitSpend agentId amount (payEntry now agentId w))

/-- The policy invariants the spec claims for every existing agent: both
limits strictly positive, `perTxLimit ≤ dailyLimit`, `spentToday ≤
dailyLimit`. -/
def policyOK (p : Policy) : Prop :=
  0 < p.dailyLimit ∧ 0 < p.perTxLimit ∧ p.perTxLimit ≤ p.dailyLimit ∧ p.spentToday ≤ p.dailyLimit

instance (p : Policy) : Decidable (policyOK p) := by
  unfold policyOK
  infer_instance

/-- Every stored agent record with a non-null owner satisfies `policyOK`. -/
def PolicyInv (w : World) : Prop :=
  ∀ pr ∈ w.agents, pr.2.owner ≠ 0 → policyOK pr.2.policy

/-- A merchant callback that preserves the policy invariant (true of any real
callback, which can only touch wallet state by re-entering the contract's
public operations). -/
def MPreservesPolicyInv (mcall : MCall) : Prop :=
  ∀ m d w, PolicyInv w → PolicyInv (mcall m d w).2

/-- The side condition C1 needs per operation: callbacks passed to `pay` and
`executeSubscription` preserve the policy invariant. -/
def OpOKForPolicy : Op → Prop
  | .pay _ _ _ _ _ _ mc => MPreservesPolicyInv mc
  | .executeSubscription _ _ _ _ _ mc => MPreservesPolicyInv mc
  | _ => True

/-- Agent ids are exactly `1..nextAgentId`: a stored record has a non-null
owner iff its id was allocated. -/
def AgentIdsOK (w : World) : Prop :=
  ∀ id : Nat, ((w.agentCfg id).owner ≠ 0 ↔ (1 ≤ id ∧ id ≤ w.nextAgentId))

/-- A merchant callback that preserves the id-allocation invariant. -/
def MPreservesIds (mcall : MCall) : Prop :=
  ∀ m d w, AgentIdsOK w → AgentIdsOK (mcall m d w).2

/-- The side condition C10 needs per operation: `createAgent` callers are
non-null identities, and callbacks preserve the id-allocation invariant. -/
def OpOKForIds : Op → Prop
  | .createAgent s _ _ _ _ => s ≠ 0
  | .pay _ _ _ _ _ _ mc => MPreservesIds mc
  | .executeSubscription _ _ _ _ _ mc => MPreservesIds mc
  | _ => True

/-- `Wbase` with the reentrancy latch set (the state seen by a nested call
from inside a guarded operation). -/
def WbaseEntered : World := { Wbase with status := 2 }

/-- The state on which `executeSubscription` runs the payment pipeline:
latch set and `nextExecutionAt` already advanced to `now + periodSeconds`
(truncated to 64 bits). -/
def advanceSub (now agentId subscriptionId : Nat) (w : World) : World :=
  let ws : World := { w with status := 2 }
  let sub := ws.sub agentId subscriptionId
  let sub1 : Subscription := { sub with nextExecutionAt := (now + sub.periodSeconds) % UINT64_MOD }
  { ws with subscriptions := setK ws.subscriptions (agentId, subscriptionId) sub1 }

/-- What `executeSubscription` does to the world returned by a successful
payment: emit `SubscriptionExecuted` (re-reading the stored amount) and
release the latch. -/
def finishExec (agentId subscriptionId : Nat) (w2 : World) : World :=
  let w3 : World := w2.emit (.SubscriptionExecuted agentId subscriptionId
    ((w2.sub agentId subscriptionId).amountPerPeriod))
  { w3 with status := 1 }

/-- A concrete policy with accrued spend, for the updateLimits witness. -/
def polSpent : Policy := { polBase with spentToday := 500 }

/-- `Wbase` with 500 already spent today by agent 1. -/
def WbaseSpent : World := { Wbase with agents := [(1, { cfgBase with policy := polSpent })] }

/- ### Projection lemmas for the daily-window reset -/

theorem resetIfNeeded_owner (now agentId a : Nat) (w : World) :
    ((resetIfNeeded now agentId w).agentCfg a).owner = (w.agentCfg a).owner := by
  simp only [resetIfNeeded]
  split
  · by_cases ha : a = agentId
    · subst ha
      simp [World.agentCfg, World.emit, getD_setK_same]
    · simp [World.agentCfg, World.emit, getD_setK_ne _ _ _ _ _ ha]
  · rfl

theorem resetIfNeeded_agent (now agentId a : Nat) (w : World) :
    ((resetIfNeeded now agentId w).agentCfg a).agent = (w.agentCfg a).agent := by
  simp only [resetIfNeeded]
  split
  · by_cases ha : a = agentId
    · subst ha
      simp [World.agentCfg, World.emit, getD_setK_same]
    · simp [World.agentCfg, World.emit, getD_setK_ne _ _ _ _ _ ha]
  · rfl

theorem resetIfNeeded_status (now agentId : Nat) (w : World) :
    (resetIfNeeded now agentId w).status = w.status := by
  simp only [resetIfNeeded]
  split <;> rfl

theorem resetIfNeeded_wl (now agentId a m : Nat) (w : World) :
    (resetIfNeeded now agentId w).wl a m = w.wl a m := by
  simp only [resetIfNeeded]
  split <;> rfl

theorem resetIfNeeded_bal (now agentId a : Nat) (w : World) :
    (resetIfNeeded now agentId w).bal a = w.bal a := by
  simp only [resetIfNeeded]
  split <;> rfl

theorem resetIfNeeded_self (now agentId : Nat) (w : World) :
    (resetIfNeeded now agentId w).self = w.self := by
  simp only [resetIfNeeded]
  split <;> rfl

theorem resetIfNeeded_usdc (now agentId : Nat) (w : World) :
    (resetIfNeeded now agentId w).usdc = w.usdc := by
  simp only [resetIfNeeded]
  split <;> rfl

theorem resetIfNeeded_nextAgentId (now agentId : Nat) (w : World) :
    (resetIfNeeded now agentId w).nextAgentId = w.nextAgentId := by
  simp only [resetIfNeeded]
  split <;> rfl

theorem resetIfNeeded_subscriptions (now agentId : Nat) (w : World) :
    (resetIfNeeded now agentId w).subscriptions = w.subscriptions := by
  simp only [resetIfNeeded]
  split <;> rfl

/-- Behaviour of the reset when the window has elapsed. -/
theorem resetIfNeeded_due (now agentId : Nat) (w : World)
    (h : (w.agentCfg agentId).policy.lastReset + SECONDS_PER_DAY ≤ now) :
    ((resetIfNeeded now agentId w).agentCfg agentId).policy.spentToday = 0
    ∧ ((resetIfNeeded now agentId w).agentCfg agentId).policy.lastReset = now % UINT64_MOD
    ∧ (resetIfNeeded now agentId w).events = w.events ++ [Event.DailySpendReset agentId] := by
  simp only [resetIfNeeded]
  rw [if_pos h]
  refine ⟨?_, ?_, rfl⟩ <;> simp [World.agentCfg, World.emit, getD_setK_same]

/-- Behaviour of the reset when within the window: the state is untouched. -/
theorem resetIfNeeded_not_due (now agentId : Nat) (w : World)
    (h : now < (w.agentCfg agentId).policy.lastReset + SECONDS_PER_DAY) :
    resetIfNeeded now agentId w = w := by
  simp only [resetIfNeeded]
  rw [if_neg (by omega)]

/- ### The state seen by the payment pipeline inside `pay` -/

theorem payEntry_wl (now agentId a m : Nat) (w : World) :
    (payEntry now agentId w).wl a m = w.wl a m := by
  simp only [payEntry, resetIfNeeded_wl]; rfl

theorem payEntry_bal (now agentId a : Nat) (w : World) :
    (payEntry now agentId w).bal a = w.bal a := by
  simp only [payEntry, resetIfNeeded_bal]; rfl

theorem payEntry_self (now agentId : Nat) (w : World) :
    (payEntry now agentId w).self = w.self := by
  simp only [payEntry, resetIfNeeded_self]

theorem payEntry_usdc (now agentId : Nat) (w : World) :
    (payEntry now agentId w).usdc = w.usdc := by
  simp only [payEntry, resetIfNeeded_usdc]

theorem payEntry_status (now agentId : Nat) (w : World) :
    (payEntry now agentId w).status = 2 := by
  simp only [payEntry, resetIfNeeded_status]

/-- Reduction of `pay` past its modifiers and entry checks: what remains is
the payment pipeline run on `payEntry`, with the latch released on success. -/
theorem pay_entry_reduce (sender now agentId merchant amount : Nat) (data : List Nat)
    (mcall : MCall) (w : World)
    (hex : (w.agentCfg agentId).owner ≠ 0)
    (hag : (w.agentCfg agentId).agent = sender)
    (hst : w.status ≠ 2) (hm : merchant ≠ 0) (ha : amount ≠ 0) :
    pay sender now agentId merchant amount data mcall w =
      match processPaymentChecked now agentId merchant amount data mcall (payEntry now agentId w) with
      | .error e => .error e
      | .ok w1 => .ok { w1 with status := 1 } := by
  simp only [pay, processPayment, payEntry]
  rw [if_neg hex, if_neg (by simp [hag]), if_neg hst, if_neg hm, if_neg ha]

/-! ### C3: order of the policy checks in `pay` -/

/-- C3: for every call to `pay` that passes entry validation (existing agent,
caller is the delegate, non-null merchant, nonzero amount; the reentrancy
latch not set), the policy checks run in the fixed order active → whitelist →
per-transaction → daily → balance, each failing with its specific error kind;
in particular a merchant that is not whitelisted makes `pay` fail with
`MerchantNotAllowed` regardless of funds or limits.  The policy inspected is
the one after the daily-window reset (`payEntry`). -/
theorem pay_check_order (sender now agentId merchant amount : Nat) (data : List Nat)
    (mcall : MCall) (w : World)
    (hex : (w.agentCfg agentId).owner ≠ 0)
    (hag : (w.agentCfg agentId).agent = sender)
    (hst : w.status ≠ 2) (hm : merchant ≠ 0) (ha : amount ≠ 0) :
    (((payEntry now agentId w).agentCfg agentId).policy.active = false →
      pay sender now agentId merchant amount data mcall w = .error .PolicyInactive)
    ∧ (((payEntry now agentId w).agentCfg agentId).policy.active = true →
      w.wl agentId merchant = false →
      pay sender now agentId merchant amount data mcall w = .error .MerchantNotAllowed)
    ∧ (((payEntry now agentId w).agentCfg agentId).policy.active = true →
      w.wl agentId merchant = true →
      ((payEntry now agentId w).agentCfg agentId).policy.perTxLimit < amount →
      pay sender now agentId merchant amount data mcall w = .error .PerTxLimitExceeded)
    ∧ (((payEntry now agentId w).agentCfg agentId).policy.active = true →
      w.wl agentId merchant = true →
      amount ≤ ((payEntry now agentId w).agentCfg agentId).policy.perTxLimit →
      ((payEntry now agentId w).agentCfg agentId).policy.dailyLimit <
        ((payEntry now agentId w).agentCfg agentId).policy.spentToday + amount →
      pay sender now agentId merchant amount data mcall w = .error .DailyLimitExceeded)
    ∧ (((payEntry now agentId w).agentCfg agentId).policy.active = true →
      w.wl agentId merchant = true →
      amount ≤ ((payEntry now agentId w).agentCfg agentId).policy.perTxLimit →
      ((payEntry now agentId w).agentCfg agentId).policy.spentToday + amount ≤
        ((payEntry now agentId w).agentCfg agentId).policy.dailyLimit →
      w.bal agentId < amount →
      pay sender now agentId merchant amount data mcall w = .error .InsufficientBalance) := by
  have hred := pay_entry_reduce sender now agentId merchant amount data mcall w hex hag hst hm ha
  refine ⟨?_, ?_, ?_, ?_, ?_⟩
  · intro hact
    rw [hred]
    simp only [processPaymentChecked]
    rw [if_pos hact]
  · intro hact hwl
    rw [hred]
    simp only [processPaymentChecked]
    rw [if_neg (by simp [hact]), payEntry_wl, if_pos hwl]
  · intro hact hwl hptx
    rw [hred]
    simp only [processPaymentChecked]
    rw [if_neg (by simp [hact]), payEntry_wl, if_neg (by simp [hwl]), if_pos hptx]
  · intro hact hwl hptx hdl
    rw [hred]
    simp only [processPaymentChecked]
    rw [if_neg (by simp [hact]), payEntry_wl, if_neg (by simp [hwl]),
      if_neg (Nat.not_lt.mpr hptx), if_pos hdl]
  · intro hact hwl hptx hdl hbal
    rw [hred]
    simp only [processPaymentChecked]
    rw [if_neg (by simp [hact]), payEntry_wl, if_neg (by simp [hwl]),
      if_neg (Nat.not_lt.mpr hptx), if_neg (Nat.not_lt.mpr hdl), payEntry_bal, if_pos hbal]

/-- C3 witness: in the concrete state, paying a merchant that was never
whitelisted fails with `MerchantNotAllowed` even though funds and limits
would allow the payment. -/
theorem pay_check_order_witness :
    pay 5 200 1 4 10 [] mcId Wbase = .error .MerchantNotAllowed := by
  exact (pay_check_order 5 200 1 4 10 [] mcId Wbase (by decide) (by decide) (by decide)
    (by decide) (by decide)).2.1 (by decide) (by decide)

/-! ### C4: commit-before-interaction in the callback settlement -/

theorem commitSpend_status (agentId amount : Nat) (w : World) :
    (commitSpend agentId amount w).status = w.status := by
  simp only [commitSpend]

theorem commitSpend_self (agentId amount : Nat) (w : World) :
    (commitSpend agentId amount w).self = w.self := by
  simp only [commitSpend]

theorem commitSpend_usdc (agentId amount : Nat) (w : World) :
    (commitSpend agentId amount w).usdc = w.usdc := by
  simp only [commitSpend]

theorem commitSpend_bal (agentId amount : Nat) (w : World) :
    (commitSpend agentId amount w).bal agentId = w.bal agentId - amount := by
  simp [commitSpend, World.bal, getD_setK_same]

theorem commitSpend_spent (agentId amount : Nat) (w : World) :
    ((commitSpend agentId amount w).agentCfg agentId).policy.spentToday
      = (w.agentCfg agentId).policy.spentToday + amount := by
  simp [commitSpend, World.agentCfg, getD_setK_same]

theorem revokeStale_status (merchant : Nat) (w : World) :
    (revokeStale merchant w).status = w.status := by
  simp only [revokeStale]
  split <;> rfl

theorem revokeStale_self (merchant : Nat) (w : World) :
    (revokeStale merchant w).self = w.self := by
  simp only [revokeStale]
  split <;> rfl

theorem revokeStale_agentCfg (merchant a : Nat) (w : World) :
    (revokeStale merchant w).agentCfg a = w.agentCfg a := by
  simp only [revokeStale]
  split <;> rfl

theorem revokeStale_bal (merchant a : Nat) (w : World) :
    (revokeStale merchant w).bal a = w.bal a := by
  simp only [revokeStale]
  split <;> rfl

/-- After the revocation step the allowance to the merchant is zero (either
it was already zero, or it was explicitly reset). -/
theorem revokeStale_allowance (merchant : Nat) (w : World) :
    (revokeStale merchant w).usdc.allowance w.self merchant = 0 := by
  simp only [revokeStale]
  split
  · simp [ERC20.approve, ERC20.allowance, getD_setK_same]
  · omega

theorem grantWorld_status (merchant amount : Nat) (w : World) :
    (grantWorld merchant amount w).status = w.status := by
  simp only [grantWorld]
  exact revokeStale_status merchant w

theorem grantWorld_agentCfg (merchant amount a : Nat) (w : World) :
    (grantWorld merchant amount w).agentCfg a = w.agentCfg a := by
  simp only [grantWorld]
  exact revokeStale_agentCfg merchant a w

theorem grantWorld_bal (merchant amount a : Nat) (w : World) :
    (grantWorld merchant amount w).bal a = w.bal a := by
  simp only [grantWorld]
  exact revokeStale_bal merchant a w

/-- The world handed to the merchant carries an allowance of exactly the
payment amount. -/
theorem grantWorld_allowance (merchant amount : Nat) (w : World) :
    (grantWorld merchant amount w).usdc.allowance w.self merchant = amount := by
  simp only [grantWorld]
  have hself := revokeStale_self merchant w
  rw [hself]
  simp [ERC20.approve, ERC20.allowance, getD_setK_same]

/-- Reduction of a `pay` call that reaches the callback settlement: the whole
call is the merchant invocation run on `callbackWorld`, with failure mapped
to `MerchantCallFailed` and success finished by `finishPay`. -/
theorem pay_callback_run (sender now agentId merchant amount : Nat) (data : List Nat)
    (mcall : MCall) (w : World)
    (hex : (w.agentCfg agentId).owner ≠ 0)
    (hag : (w.agentCfg agentId).agent = sender)
    (hst : w.status ≠ 2) (hm : merchant ≠ 0) (ha : amount ≠ 0)
    (hdata : data.length ≠ 0)
    (hact : ((payEntry now agentId w).agentCfg agentId).policy.active = true)
    (hwl : w.wl agentId merchant = true)
    (hptx : amount ≤ ((payEntry now agentId w).agentCfg agentId).policy.perTxLimit)
    (hdl : ((payEntry now agentId w).agentCfg agentId).policy.spentToday + amount ≤
      ((payEntry now agentId w).agentCfg agentId).policy.dailyLimit)
    (hbal : amount ≤ w.bal agentId) :
    pay sender now agentId merchant amount data mcall w =
      match mcall merchant data (callbackWorld now agentId merchant amount w) with
      | (false, _) => .error .MerchantCallFailed
      | (true, w3) => .ok (finishPay agentId merchant amount data w3) := by
  rw [pay_entry_reduce sender now agentId merchant amount data mcall w hex hag hst hm ha]
  simp only [processPaymentChecked]
  rw [if_neg (by simp [hact]), payEntry_wl, if_neg (by simp [hwl]),
    if_neg (Nat.not_lt.mpr hptx), if_neg (Nat.not_lt.mpr hdl), payEntry_bal,
    if_neg (Nat.not_lt.mpr hbal), if_neg hdata]
  simp only [settleCallback, callbackWorld]
  rcases mcall merchant data (grantWorld merchant amount (commitSpend agentId amount (payEntry now agentId w))) with ⟨b, w3⟩
  cases b
  · rfl
  · simp only [finishPay]

/-- C4: when a payment with a callback payload reaches settlement, the debit
of the agent's ledger balance and the `spentToday` increment are committed in
the world the merchant is invoked on; the settlement first leaves the stale
allowance revoked (zero), grants an allowance of exactly the payment amount,
and only then invokes the merchant with the caller-supplied payload — the
whole call reduces to that single external invocation on `callbackWorld`. -/
theorem callback_payment_order (sender now agentId merchant amount : Nat) (data : List Nat)
    (mcall : MCall) (w : World)
    (hex : (w.agentCfg agentId).owner ≠ 0)
    (hag : (w.agentCfg agentId).agent = sender)
    (hst : w.status ≠ 2) (hm : merchant ≠ 0) (ha : amount ≠ 0)
    (hdata : data.length ≠ 0)
    (hact : ((payEntry now agentId w).agentCfg agentId).policy.active = true)
    (hwl : w.wl agentId merchant = true)
    (hptx : amount ≤ ((payEntry now agentId w).agentCfg agentId).policy.perTxLimit)
    (hdl : ((payEntry now agentId w).agentCfg agentId).policy.spentToday + amount ≤
      ((payEntry now agentId w).agentCfg agentId).policy.dailyLimit)
    (hbal : amount ≤ w.bal agentId) :
    (pay sender now agentId merchant amount data mcall w =
      match mcall merchant data (callbackWorld now agentId merchant amount w) with
      | (false, _) => .error .MerchantCallFailed
      | (true, w3) => .ok (finishPay agentId merchant amount data w3))
    ∧ (callbackWorld now agentId merchant amount w).bal agentId + amount = w.bal agentId
    ∧ ((callbackWorld now agentId merchant amount w).agentCfg agentId).policy.spentToday
        = ((payEntry now agentId w).agentCfg agentId).policy.spentToday + amount
    ∧ (revokeStale merchant (commitSpend agentId amount (payEntry now agentId w))).usdc.allowance
        w.self merchant = 0
    ∧ (callbackWorld now agentId merchant amount w).usdc.allowance w.self merchant = amount := by
  refine ⟨pay_callback_run sender now agentId merchant amount data mcall w
    hex hag hst hm ha hdata hact hwl hptx hdl hbal, ?_, ?_, ?_, ?_⟩
  · rw [callbackWorld, grantWorld_bal, commitSpend_bal, payEntry_bal]
    omega
  · rw [callbackWorld, grantWorld_agentCfg, commitSpend_spent]
  · have h := revokeStale_allowance merchant (commitSpend agentId amount (payEntry now agentId w))
    rw [commitSpend_self, payEntry_self] at h
    exact h
  · have h := grantWorld_allowance merchant amount (commitSpend agentId amount (payEntry now agentId w))
    rw [commitSpend_self, payEntry_self] at h
    rw [callbackWorld]
    exact h

/-- C4 witness: a concrete callback payment; the merchant sees the committed
debit, the committed `spentToday`, and an allowance of exactly the amount. -/
theorem callback_payment_order_witness :
    (callbackWorld 200 1 8 100 Wbase).bal 1 + 100 = Wbase.bal 1
    ∧ ((callbackWorld 200 1 8 100 Wbase).agentCfg 1).policy.spentToday
        = ((payEntry 200 1 Wbase).agentCfg 1).policy.spentToday + 100
    ∧ (callbackWorld 200 1 8 100 Wbase).usdc.allowance Wbase.self 8 = 100
    ∧ pay 5 200 1 8 100 [123] mcId Wbase =
        .ok (finishPay 1 8 100 [123] (callbackWorld 200 1 8 100 Wbase)) := by
  have h := callback_payment_order 5 200 1 8 100 [123] mcId Wbase (by decide) (by decide)
    (by decide) (by decide) (by decide) (by decide) (by decide) (by decide) (by decide)
    (by decide) (by decide)
  exact ⟨h.2.1, h.2.2.1, h.2.2.2.2, h.1⟩

/-! ### C9: emergencyWithdraw drains unconditionally -/

/-- A token transfer with sufficient funds succeeds and credits the
destination (when distinct from the source) by exactly the amount. -/
theorem transfer_ok_balance (t : ERC20) (fr dst amount : Nat)
    (h : amount ≤ t.balanceOf fr) (hne : dst ≠ fr) :
    ∃ t', t.transfer fr dst amount = some t'
      ∧ t'.balanceOf dst = t.balanceOf dst + amount := by
  simp only [ERC20.transfer]
  rw [if_neg (Nat.not_lt.mpr h)]
  refine ⟨_, rfl, ?_⟩
  simp only [ERC20.balanceOf]
  rw [getD_setK_same, getD_setK_ne _ _ _ _ _ hne]

/-- C9: `emergencyWithdraw` is owner-only and an unconditional full drain —
with no hypothesis whatsoever on the policy (active or paused), the
whitelist, or the limits, it succeeds, zeroes the agent's ledger balance and
credits the owner's external token balance by exactly the prior ledger
balance. -/
theorem emergency_withdraw_drain (sender agentId : Nat) (w : World)
    (hex : (w.agentCfg agentId).owner ≠ 0)
    (hown : (w.agentCfg agentId).owner = sender)
    (hst : w.status ≠ 2)
    (hself : sender ≠ w.self)
    (htok : w.bal agentId ≤ w.usdc.balanceOf w.self) :
    ∃ w', emergencyWithdraw sender agentId w = .ok w'
      ∧ w'.bal agentId = 0
      ∧ w'.usdc.balanceOf sender = w.usdc.balanceOf sender + w.bal agentId
      ∧ w'.agents = w.agents
      ∧ w'.status = 1 := by
  obtain ⟨t', ht', hbal'⟩ := transfer_ok_balance w.usdc w.self sender (w.bal agentId) htok hself
  simp only [emergencyWithdraw]
  rw [if_neg hex, if_neg (by simp [hown]), if_neg hst]
  simp only [World.bal, World.emit] at ht' hbal' ⊢
  rw [ht']
  refine ⟨_, rfl, ?_, ?_, ?_, ?_⟩
  · simp [getD_setK_same]
  · exact hbal'
  · rfl
  · rfl

/-- C9 witness: draining the concrete funded agent (balance 600) zeroes the
ledger entry and credits the owner's token balance by exactly 600. -/
theorem emergency_withdraw_drain_witness :
    (applyOp (.emergencyWithdraw 7 1) Wbase).2 = none
    ∧ (applyOp (.emergencyWithdraw 7 1) Wbase).1.bal 1 = 0
    ∧ (applyOp (.emergencyWithdraw 7 1) Wbase).1.usdc.balanceOf 7
        = Wbase.usdc.balanceOf 7 + Wbase.bal 1 := by
  obtain ⟨w', heq, h0, h7, hag, hs⟩ := emergency_withdraw_drain 7 1 Wbase (by decide) (by decide)
    (by decide) (by decide) (by decide)
  simp only [applyOp, Op.inner, heq]
  exact ⟨trivial, h0, h7⟩

/-! ### Success-projection lemmas for each operation -/

theorem validateLimits_none_iff (dl pt : Nat) :
    validateLimits dl pt = none ↔ (dl ≠ 0 ∧ pt ≠ 0 ∧ pt ≤ dl) := by
  unfold validateLimits
  split_ifs with h1 h2 <;> simp <;> omega

theorem createAgent_ok_proj (s n a dl pt : Nat) (w w' : World)
    (h : createAgent s n a dl pt w = .ok w') :
    w'.status = w.status ∧ w'.nextAgentId = w.nextAgentId + 1
    ∧ w'.agents = setK w.agents (w.nextAgentId + 1) ⟨s, a, ⟨true, dl, pt, 0, n % UINT64_MOD⟩⟩
    ∧ a ≠ 0 ∧ dl ≠ 0 ∧ pt ≠ 0 ∧ pt ≤ dl := by
  simp only [createAgent] at h
  repeat' split at h
  all_goals try exact Except.noConfusion h
  injection h with h
  subst h
  have hval := (validateLimits_none_iff dl pt).mp (by assumption)
  exact ⟨rfl, rfl, rfl, by assumption, hval.1, hval.2.1, hval.2.2⟩

theorem setAgentAddress_ok_proj (s aid na : Nat) (w w' : World)
    (h : setAgentAddress s aid na w = .ok w') :
    w'.status = w.status ∧ w'.nextAgentId = w.nextAgentId
    ∧ w'.agents = setK w.agents aid { w.agentCfg aid with agent := na } := by
  simp only [setAgentAddress] at h
  repeat' split at h
  all_goals try exact Except.noConfusion h
  injection h with h
  subst h
  exact ⟨rfl, rfl, rfl⟩

theorem deposit_ok_proj (s aid amt : Nat) (w w' : World) (h : deposit s aid amt w = .ok w') :
    w'.status = 1 ∧ w'.nextAgentId = w.nextAgentId ∧ w'.agents = w.agents := by
  simp only [deposit] at h
  repeat' split at h
  all_goals try exact Except.noConfusion h
  injection h with h
  subst h
  exact ⟨rfl, rfl, rfl⟩

theorem withdraw_ok_proj (s aid amt : Nat) (w w' : World) (h : withdraw s aid amt w = .ok w') :
    w'.status = 1 ∧ w'.nextAgentId = w.nextAgentId ∧ w'.agents = w.agents := by
  simp only [withdraw] at h
  repeat' split at h
  all_goals try exact Except.noConfusion h
  injection h with h
  subst h
  exact ⟨rfl, rfl, rfl⟩

theorem emergencyWithdraw_ok_proj (s aid : Nat) (w w' : World)
    (h : emergencyWithdraw s aid w = .ok w') :
    w'.status = 1 ∧ w'.nextAgentId = w.nextAgentId ∧ w'.agents = w.agents := by
  simp only [emergencyWithdraw] at h
  repeat' split at h
  all_goals try exact Except.noConfusion h
  injection h with h
  subst h
  exact ⟨rfl, rfl, rfl⟩

theorem setPolicyActive_ok_proj (s aid : Nat) (b : Bool) (w w' : World)
    (h : setPolicyActive s aid b w = .ok w') :
    w'.status = w.status ∧ w'.nextAgentId = w.nextAgentId
    ∧ w'.agents = setK w.agents aid
        { w.agentCfg aid with policy := { (w.agentCfg aid).policy with active := b } } := by
  simp only [setPolicyActive] at h
  repeat' split at h
  all_goals try exact Except.noConfusion h
  injection h with h
  subst h
  exact ⟨rfl, rfl, rfl⟩

theorem updateLimits_ok_char (s n aid dl pt : Nat) (w w' : World)
    (h : updateLimits s n aid dl pt w = .ok w') :
    w' = applyNewLimits aid dl pt (resetIfNeeded n aid w)
    ∧ dl ≠ 0 ∧ pt ≠ 0 ∧ pt ≤ dl := by
  simp only [updateLimits] at h
  repeat' split at h
  all_goals try exact Except.noConfusion h
  injection h with h
  subst h
  have hval := (validateLimits_none_iff dl pt).mp (by assumption)
  exact ⟨rfl, hval.1, hval.2.1, hval.2.2⟩

theorem setMerchantWhitelist_ok_proj (s aid m : Nat) (b : Bool) (w w' : World)
    (h : setMerchantWhitelist s aid m b w = .ok w') :
    w'.status = w.status ∧ w'.nextAgentId = w.nextAgentId ∧ w'.agents = w.agents := by
  simp only [setMerchantWhitelist] at h
  repeat' split at h
  all_goals try exact Except.noConfusion h
  injection h with h
  subst h
  exact ⟨rfl, rfl, rfl⟩

theorem pay_ok_status (s n aid m amt : Nat) (d : List Nat) (mc : MCall) (w w' : World)
    (h : pay s n aid m amt d mc w = .ok w') : w'.status = 1 := by
  simp only [pay] at h
  repeat' split at h
  all_goals try exact Except.noConfusion h
  injection h with h
  subst h
  rfl

theorem createSubscription_ok_proj (s n aid m app ps fe : Nat) (w w' : World)
    (h : createSubscription s n aid m app ps fe w = .ok w') :
    w'.status = w.status ∧ w'.nextAgentId = w.nextAgentId ∧ w'.agents = w.agents := by
  simp only [createSubscription] at h
  repeat' split at h
  all_goals first
    | exact Except.noConfusion h
    | (injection h with h; subst h; exact ⟨rfl, rfl, rfl⟩)

theorem setSubscriptionStatus_ok_proj (s aid sid : Nat) (b : Bool) (w w' : World)
    (h : setSubscriptionStatus s aid sid b w = .ok w') :
    w'.status = w.status ∧ w'.nextAgentId = w.nextAgentId ∧ w'.agents = w.agents := by
  simp only [setSubscriptionStatus] at h
  repeat' split at h
  all_goals try exact Except.noConfusion h
  injection h with h
  subst h
  exact ⟨rfl, rfl, rfl⟩

theorem executeSubscription_ok_status (s n aid sid : Nat) (d : List Nat) (mc : MCall)
    (w w' : World) (h : executeSubscription s n aid sid d mc w = .ok w') : w'.status = 1 := by
  simp only [executeSubscription] at h
  repeat' split at h
  all_goals try exact Except.noConfusion h
  injection h with h
  subst h
  rfl

/-! ### C5: the reentrancy latch (amended) -/

/-- C5 (amended): a single latch guards the five funds-moving entry points.
With the latch set, each of them — once past the existence/authorization
modifiers that the source runs first — fails fast with `ReentrantCall`; the
world handed to the merchant callback always carries the latch set
(`status = 2`), so a nested attempt from inside a callback fails; and after
any committed operation starting from a released latch the latch is released
again (success paths reset it explicitly, failures revert it). -/
theorem reentrancy_guard_latch :
    (∀ (s aid amt : Nat) (w : World), (w.agentCfg aid).owner ≠ 0 → (w.agentCfg aid).owner = s →
      w.status = 2 → deposit s aid amt w = .error .ReentrantCall)
    ∧ (∀ (s aid amt : Nat) (w : World), (w.agentCfg aid).owner ≠ 0 → (w.agentCfg aid).owner = s →
      w.status = 2 → withdraw s aid amt w = .error .ReentrantCall)
    ∧ (∀ (s aid : Nat) (w : World), (w.agentCfg aid).owner ≠ 0 → (w.agentCfg aid).owner = s →
      w.status = 2 → emergencyWithdraw s aid w = .error .ReentrantCall)
    ∧ (∀ (s n aid m amt : Nat) (d : List Nat) (mc : MCall) (w : World),
      (w.agentCfg aid).owner ≠ 0 → (w.agentCfg aid).agent = s →
      w.status = 2 → pay s n aid m amt d mc w = .error .ReentrantCall)
    ∧ (∀ (s n aid sid : Nat) (d : List Nat) (mc : MCall) (w : World),
      (w.agentCfg aid).owner ≠ 0 →
      w.status = 2 → executeSubscription s n aid sid d mc w = .error .ReentrantCall)
    ∧ (∀ (now aid m amt : Nat) (w : World), (callbackWorld now aid m amt w).status = 2)
    ∧ (∀ (op : Op) (w : World), w.status = 1 → ((applyOp op w).1).status = 1) := by
  refine ⟨?_, ?_, ?_, ?_, ?_, ?_, ?_⟩
  · intro s aid amt w hex hown hst
    simp only [deposit]
    rw [if_neg hex, if_neg (by simp [hown]), if_pos hst]
  · intro s aid amt w hex hown hst
    simp only [withdraw]
    rw [if_neg hex, if_neg (by simp [hown]), if_pos hst]
  · intro s aid w hex hown hst
    simp only [emergencyWithdraw]
    rw [if_neg hex, if_neg (by simp [hown]), if_pos hst]
  · intro s n aid m amt d mc w hex hag hst
    simp only [pay]
    rw [if_neg hex, if_neg (by simp [hag]), if_pos hst]
  · intro s n aid sid d mc w hex hst
    simp only [executeSubscription]
    rw [if_neg hex, if_pos hst]
  · intro now aid m amt w
    rw [callbackWorld, grantWorld_status, commitSpend_status, payEntry_status]
  · intro op w hst
    cases hres : Op.inner op w with
    | error e =>
      have : (applyOp op w).1 = w := by simp [applyOp, hres]
      rw [this]
      exact hst
    | ok w' =>
      have h1 : (applyOp op w).1 = w' := by simp [applyOp, hres]
      rw [h1]
      cases op with
      | createAgent s n a dl pt => rw [(createAgent_ok_proj s n a dl pt w w' hres).1]; exact hst
      | setAgentAddress s aid na => rw [(setAgentAddress_ok_proj s aid na w w' hres).1]; exact hst
      | deposit s aid amt => exact (deposit_ok_proj s aid amt w w' hres).1
      | withdraw s aid amt => exact (withdraw_ok_proj s aid amt w w' hres).1
      | emergencyWithdraw s aid => exact (emergencyWithdraw_ok_proj s aid w w' hres).1
      | setPolicyActive s aid b => rw [(setPolicyActive_ok_proj s aid b w w' hres).1]; exact hst
      | updateLimits s n aid dl pt =>
        rw [(updateLimits_ok_char s n aid dl pt w w' hres).1]
        rw [show ∀ (x : World), (applyNewLimits aid dl pt x).status = x.status from fun x => by
          simp only [applyNewLimits, World.emit]]
        rw [resetIfNeeded_status]
        exact hst
      | setMerchantWhitelist s aid m b =>
        rw [(setMerchantWhitelist_ok_proj s aid m b w w' hres).1]; exact hst
      | pay s n aid m amt d mc => exact pay_ok_status s n aid m amt d mc w w' hres
      | createSubscription s n aid m app ps fe =>
        rw [(createSubscription_ok_proj s n aid m app ps fe w w' hres).1]; exact hst
      | setSubscriptionStatus s aid sid b =>
        rw [(setSubscriptionStatus_ok_proj s aid sid b w w' hres).1]; exact hst
      | executeSubscription s n aid sid d mc =>
        exact executeSubscription_ok_status s n aid sid d mc w w' hres

/-- C5 witness: a nested `deposit` against the concrete state with the latch
set (and passing the existence/authorization modifiers) fails with
`ReentrantCall`. -/
theorem reentrancy_guard_latch_witness :
    deposit 7 1 5 WbaseEntered = .error .ReentrantCall := by
  exact reentrancy_guard_latch.1 7 1 5 WbaseEntered (by decide) (by decide) (by decide)

/-- C5 counterexample to the claim as stated: with the latch set, a nested
`deposit` naming an unknown agent id fails with `AgentNotFound`, not with
`ReentrantCall` — the `agentExists`/`onlyAgentOwner` modifiers run before the
latch check. -/
theorem reentrancy_guard_counterexample :
    deposit 7 2 5 WbaseEntered = .error .AgentNotFound
    ∧ Err.AgentNotFound ≠ Err.ReentrantCall := by
  exact ⟨by decide, by decide⟩

/-! ### C7: updateLimits -/

theorem validateLimits_invalid (dl pt : Nat) (h : dl = 0 ∨ pt = 0 ∨ dl < pt) :
    validateLimits dl pt = some .InvalidLimits := by
  unfold validateLimits
  split_ifs with h1 h2 <;> first | rfl | (exfalso; omega)

theorem resetIfNeeded_spentToday_le (now aid : Nat) (w : World) :
    ((resetIfNeeded now aid w).agentCfg aid).policy.spentToday
      ≤ (w.agentCfg aid).policy.spentToday := by
  simp only [resetIfNeeded]
  split
  · simp [World.agentCfg, World.emit, getD_setK_same]
  · exact Nat.le_refl _

/-- Past the access checks and validation, `updateLimits` is exactly: reset
the window if due, then apply the new limits (with the clamp). -/
theorem updateLimits_success_eq (s n aid dl pt : Nat) (w : World)
    (hex : (w.agentCfg aid).owner ≠ 0) (hown : (w.agentCfg aid).owner = s)
    (hdl : dl ≠ 0) (hpt : pt ≠ 0) (hle : pt ≤ dl) :
    updateLimits s n aid dl pt w = .ok (applyNewLimits aid dl pt (resetIfNeeded n aid w)) := by
  simp only [updateLimits]
  rw [if_neg hex, if_neg (by simp [hown]),
    show validateLimits dl pt = none from (validateLimits_none_iff dl pt).mpr ⟨hdl, hpt, hle⟩]

/-- The policy written by `applyNewLimits`: the new limits verbatim,
`spentToday` clamped down to the new daily limit, everything else kept. -/
theorem applyNewLimits_policy (aid dl pt : Nat) (w : World) :
    ((applyNewLimits aid dl pt w).agentCfg aid).policy.dailyLimit = dl
    ∧ ((applyNewLimits aid dl pt w).agentCfg aid).policy.perTxLimit = pt
    ∧ ((applyNewLimits aid dl pt w).agentCfg aid).policy.spentToday
        = min ((w.agentCfg aid).policy.spentToday) dl
    ∧ ((applyNewLimits aid dl pt w).agentCfg aid).policy.lastReset
        = (w.agentCfg aid).policy.lastReset
    ∧ ((applyNewLimits aid dl pt w).agentCfg aid).policy.active
        = (w.agentCfg aid).policy.active := by
  simp only [applyNewLimits, World.emit, World.agentCfg]
  rw [getD_setK_same]
  refine ⟨?_, ?_, ?_, ?_, ?_⟩ <;> (try split) <;> simp <;> omega

/-- C7: `updateLimits` is owner-only (after existence), re-validates the new
limits exactly as creation does, applies a due daily-window reset first, then
stores the limits verbatim and clamps `spentToday` down to the new daily
limit — never raising it above its pre-call value. -/
theorem update_limits_behavior (s n aid dl pt : Nat) (w : World) :
    ((w.agentCfg aid).owner = 0 → updateLimits s n aid dl pt w = .error .AgentNotFound)
    ∧ ((w.agentCfg aid).owner ≠ 0 → (w.agentCfg aid).owner ≠ s →
        updateLimits s n aid dl pt w = .error .NotAgentOwner)
    ∧ ((w.agentCfg aid).owner ≠ 0 → (w.agentCfg aid).owner = s →
        (dl = 0 ∨ pt = 0 ∨ dl < pt) →
        updateLimits s n aid dl pt w = .error .InvalidLimits)
    ∧ ((w.agentCfg aid).owner ≠ 0 → (w.agentCfg aid).owner = s →
        dl ≠ 0 → pt ≠ 0 → pt ≤ dl →
        updateLimits s n aid dl pt w = .ok (applyNewLimits aid dl pt (resetIfNeeded n aid w))
        ∧ ((applyNewLimits aid dl pt (resetIfNeeded n aid w)).agentCfg aid).policy.dailyLimit = dl
        ∧ ((applyNewLimits aid dl pt (resetIfNeeded n aid w)).agentCfg aid).policy.perTxLimit = pt
        ∧ ((applyNewLimits aid dl pt (resetIfNeeded n aid w)).agentCfg aid).policy.spentToday
            = min (((resetIfNeeded n aid w).agentCfg aid).policy.spentToday) dl
        ∧ ((applyNewLimits aid dl pt (resetIfNeeded n aid w)).agentCfg aid).policy.spentToday
            ≤ (w.agentCfg aid).policy.spentToday) := by
  refine ⟨?_, ?_, ?_, ?_⟩
  · intro h0
    simp only [updateLimits]
    rw [if_pos h0]
  · intro hex hns
    simp only [updateLimits]
    rw [if_neg hex, if_pos hns]
  · intro hex hown hbad
    simp only [updateLimits]
    rw [if_neg hex, if_neg (by simp [hown]), validateLimits_invalid dl pt hbad]
  · intro hex hown hdl hpt hle
    have heq := updateLimits_success_eq s n aid dl pt w hex hown hdl hpt hle
    have hpol := applyNewLimits_policy aid dl pt (resetIfNeeded n aid w)
    refine ⟨heq, hpol.1, hpol.2.1, hpol.2.2.1, ?_⟩
    rw [hpol.2.2.1]
    exact Nat.le_trans (Nat.min_le_left _ _) (resetIfNeeded_spentToday_le n aid w)

/-- C7 witness: with 500 already spent, tightening to a daily limit of 400
(per-tx 300) succeeds and clamps `spentToday` down to 400. -/
theorem update_limits_behavior_witness :
    updateLimits 7 200 1 400 300 WbaseSpent
      = .ok (applyNewLimits 1 400 300 (resetIfNeeded 200 1 WbaseSpent))
    ∧ ((applyNewLimits 1 400 300 (resetIfNeeded 200 1 WbaseSpent)).agentCfg 1).policy.spentToday
        = 400 := by
  have h := (update_limits_behavior 7 200 1 400 300 WbaseSpent).2.2.2 (by decide) (by decide)
    (by decide) (by decide) (by decide)
  exact ⟨h.1, by decide⟩

/-! ### C8: executeSubscription (amended) -/

/-- C8 (amended): `executeSubscription` is callable by anyone (its result does
not depend on the sender); it fails when the subscription is inactive, absent
or not yet due; and an eligible call first rebases `nextExecutionAt` to
`now + periodSeconds` (truncated to 64 bits) — not to the previous
`nextExecutionAt + periodSeconds` — and only then delegates to the payment
pipeline with the subscription's stored merchant and amountPerPeriod. -/
theorem execute_subscription_behavior :
    (∀ (s1 s2 now aid sid : Nat) (d : List Nat) (mc : MCall) (w : World),
      executeSubscription s1 now aid sid d mc w = executeSubscription s2 now aid sid d mc w)
    ∧ (∀ (s now aid sid : Nat) (d : List Nat) (mc : MCall) (w : World),
      (w.agentCfg aid).owner ≠ 0 → w.status ≠ 2 → (w.sub aid sid).active = false →
      executeSubscription s now aid sid d mc w = .error .SubscriptionInactive)
    ∧ (∀ (s now aid sid : Nat) (d : List Nat) (mc : MCall) (w : World),
      (w.agentCfg aid).owner ≠ 0 → w.status ≠ 2 → (w.sub aid sid).active = true →
      (w.sub aid sid).merchant = 0 →
      executeSubscription s now aid sid d mc w = .error .SubscriptionNotFound)
    ∧ (∀ (s now aid sid : Nat) (d : List Nat) (mc : MCall) (w : World),
      (w.agentCfg aid).owner ≠ 0 → w.status ≠ 2 → (w.sub aid sid).active = true →
      (w.sub aid sid).merchant ≠ 0 → now < (w.sub aid sid).nextExecutionAt →
      executeSubscription s now aid sid d mc w = .error .TooEarly)
    ∧ (∀ (s now aid sid : Nat) (d : List Nat) (mc : MCall) (w : World),
      (w.agentCfg aid).owner ≠ 0 → w.status ≠ 2 → (w.sub aid sid).active = true →
      (w.sub aid sid).merchant ≠ 0 → (w.sub aid sid).nextExecutionAt ≤ now →
      executeSubscription s now aid sid d mc w =
        match processPayment now aid (w.sub aid sid).merchant (w.sub aid sid).amountPerPeriod d mc
            (advanceSub now aid sid w) with
        | .error e => .error e
        | .ok w2 => .ok (finishExec aid sid w2))
    ∧ (∀ (now aid sid : Nat) (w : World),
      ((advanceSub now aid sid w).sub aid sid).nextExecutionAt
        = (now + (w.sub aid sid).periodSeconds) % UINT64_MOD) := by
  refine ⟨?_, ?_, ?_, ?_, ?_, ?_⟩
  · intro s1 s2 now aid sid d mc w
    rfl
  · intro s now aid sid d mc w hex hst hact
    simp only [executeSubscription]
    rw [if_neg hex, if_neg hst,
      show (({ w with status := 2 } : World)).sub aid sid = w.sub aid sid from rfl,
      if_pos hact]
  · intro s now aid sid d mc w hex hst hact hm
    simp only [executeSubscription]
    rw [if_neg hex, if_neg hst,
      show (({ w with status := 2 } : World)).sub aid sid = w.sub aid sid from rfl,
      if_neg (by simp [hact]), if_pos hm]
  · intro s now aid sid d mc w hex hst hact hm hdue
    simp only [executeSubscription]
    rw [if_neg hex, if_neg hst,
      show (({ w with status := 2 } : World)).sub aid sid = w.sub aid sid from rfl,
      if_neg (by simp [hact]), if_neg hm, if_pos hdue]
  · intro s now aid sid d mc w hex hst hact hm hdue
    simp only [executeSubscription]
    rw [if_neg hex, if_neg hst,
      show (({ w with status := 2 } : World)).sub aid sid = w.sub aid sid from rfl,
      if_neg (by simp [hact]), if_neg hm, if_neg (Nat.not_lt.mpr hdue)]
    rfl
  · intro now aid sid w
    simp [advanceSub, World.sub, getD_setK_same]

/-- C8 witness: a not-yet-due call on the concrete state fails with the
too-early error, and the advance rebases `nextExecutionAt` to
`now + periodSeconds`. -/
theorem execute_subscription_behavior_witness :
    executeSubscription 3 50 1 1 [] mcId Wbase = .error .TooEarly
    ∧ ((advanceSub 500 1 1 Wbase).sub 1 1).nextExecutionAt = 560 := by
  refine ⟨execute_subscription_behavior.2.2.2.1 3 50 1 1 [] mcId Wbase (by decide) (by decide)
    (by decide) (by decide) (by decide), ?_⟩
  rw [execute_subscription_behavior.2.2.2.2.2 500 1 1 Wbase]
  decide

/-- C8 counterexample to the claim as stated: executing the concrete
subscription (previous `nextExecutionAt = 100`, `periodSeconds = 60`) at
`now = 500` commits `nextExecutionAt = 560 = now + periodSeconds`, not
`160 = nextExecutionAt + periodSeconds`. -/
theorem execute_subscription_counterexample :
    ((applyOp (.executeSubscription 3 500 1 1 [] mcId) Wbase).1.sub 1 1).nextExecutionAt = 560
    ∧ (Wbase.sub 1 1).nextExecutionAt + (Wbase.sub 1 1).periodSeconds = 160
    ∧ (560 : Nat) ≠ 160 := by
  exact ⟨by decide, by decide, by decide⟩

/-! ### C6: the daily-window reset -/

theorem commitSpend_lastReset (aid amt : Nat) (w : World) :
    ((commitSpend aid amt w).agentCfg aid).policy.lastReset
      = (w.agentCfg aid).policy.lastReset := by
  simp [commitSpend, World.agentCfg, getD_setK_same]

theorem settleDirect_agents (m amt : Nat) (w w' : World) (h : settleDirect m amt w = .ok w') :
    w'.agents = w.agents := by
  simp only [settleDirect] at h
  repeat' split at h
  all_goals try exact Except.noConfusion h
  injection h with h
  subst h
  rfl

theorem settleCallback_lastResetAt (aid m amt : Nat) (d : List Nat) (mc : MCall) (w w' : World)
    (hmc : ∀ mm dd ww, ((mc mm dd ww).2.agentCfg aid).policy.lastReset
      = ((ww : World).agentCfg aid).policy.lastReset)
    (h : settleCallback m amt d mc w = .ok w') :
    (w'.agentCfg aid).policy.lastReset = (w.agentCfg aid).policy.lastReset := by
  simp only [settleCallback] at h
  split at h
  · exact Except.noConfusion h
  · injection h with h
    subst h
    rename_i heq
    have h2 := hmc m d (grantWorld m amt w)
    rw [heq] at h2
    rw [grantWorld_agentCfg] at h2
    exact h2

/-- The post-reset payment pipeline never touches `lastReset` (assuming the
merchant callback, which is external code, does not either). -/
theorem processPaymentChecked_lastReset (now aid m amt : Nat) (d : List Nat) (mc : MCall)
    (w w' : World)
    (hmc : ∀ mm dd ww, ((mc mm dd ww).2.agentCfg aid).policy.lastReset
      = ((ww : World).agentCfg aid).policy.lastReset)
    (h : processPaymentChecked now aid m amt d mc w = .ok w') :
    (w'.agentCfg aid).policy.lastReset = (w.agentCfg aid).policy.lastReset := by
  simp only [processPaymentChecked] at h
  repeat' split at h
  all_goals try exact Except.noConfusion h
  injection h with h
  subst h
  rename_i w1 heq
  show (w1.agentCfg aid).policy.lastReset = (w.agentCfg aid).policy.lastReset
  by_cases hd : d.length = 0
  · rw [if_pos hd] at heq
    have ha := settleDirect_agents m amt _ _ heq
    have : w1.agentCfg aid = (commitSpend aid amt w).agentCfg aid := by
      rw [World.agentCfg, World.agentCfg, ha]
    rw [this]
    exact commitSpend_lastReset aid amt w
  · rw [if_neg hd] at heq
    exact (settleCallback_lastResetAt aid m amt d mc _ _ hmc heq).trans
      (commitSpend_lastReset aid amt w)

/-- A successful `pay` within the current window leaves `lastReset` unchanged
(assuming a callback that does not alter it). -/
theorem pay_ok_lastReset (s n aid m amt : Nat) (d : List Nat) (mc : MCall) (w w' : World)
    (hmc : ∀ mm dd ww, ((mc mm dd ww).2.agentCfg aid).policy.lastReset
      = ((ww : World).agentCfg aid).policy.lastReset)
    (hwin : n < (w.agentCfg aid).policy.lastReset + SECONDS_PER_DAY)
    (h : pay s n aid m amt d mc w = .ok w') :
    (w'.agentCfg aid).policy.lastReset = (w.agentCfg aid).policy.lastReset := by
  simp only [pay, processPayment] at h
  repeat' split at h
  all_goals try exact Except.noConfusion h
  injection h with h
  subst h
  rename_i w1 heq
  rw [resetIfNeeded_not_due n aid _ (by exact hwin)] at heq
  have h2 := processPaymentChecked_lastReset n aid m amt d mc { w with status := 2 } w1 hmc heq
  exact h2

/-- C6: the daily-window reset.  (1) When due it zeroes `spentToday`,
restamps `lastReset` and emits the reset event.  (2) Within the window it is
the identity.  (3) Hence two applications within the same window leave the
state — in particular `lastReset` — unchanged.  (4) The payment pipeline
(used by `pay` and `executeSubscription`) runs it first, before every check.
(5) `updateLimits` runs it first as well.  (6)(7)(8) Nothing after the reset
in those operations writes `lastReset`: the limit application preserves it,
and a committed `pay` within the window (with a callback that does not touch
it) leaves it unchanged. -/
theorem daily_window_reset :
    (∀ (now aid : Nat) (w : World),
      (w.agentCfg aid).policy.lastReset + SECONDS_PER_DAY ≤ now →
      ((resetIfNeeded now aid w).agentCfg aid).policy.spentToday = 0
      ∧ ((resetIfNeeded now aid w).agentCfg aid).policy.lastReset = now % UINT64_MOD
      ∧ (resetIfNeeded now aid w).events = w.events ++ [Event.DailySpendReset aid])
    ∧ (∀ (now aid : Nat) (w : World),
      now < (w.agentCfg aid).policy.lastReset + SECONDS_PER_DAY →
      resetIfNeeded now aid w = w)
    ∧ (∀ (now1 now2 aid : Nat) (w : World),
      now1 < (w.agentCfg aid).policy.lastReset + SECONDS_PER_DAY →
      now2 < (w.agentCfg aid).policy.lastReset + SECONDS_PER_DAY →
      resetIfNeeded now2 aid (resetIfNeeded now1 aid w) = w)
    ∧ (∀ (now aid m amt : Nat) (d : List Nat) (mc : MCall) (w : World),
      processPayment now aid m amt d mc w
        = processPaymentChecked now aid m amt d mc (resetIfNeeded now aid w))
    ∧ (∀ (s n aid dl pt : Nat) (w : World),
      (w.agentCfg aid).owner ≠ 0 → (w.agentCfg aid).owner = s → dl ≠ 0 → pt ≠ 0 → pt ≤ dl →
      updateLimits s n aid dl pt w = .ok (applyNewLimits aid dl pt (resetIfNeeded n aid w)))
    ∧ (∀ (aid dl pt : Nat) (w : World),
      ((applyNewLimits aid dl pt w).agentCfg aid).policy.lastReset
        = (w.agentCfg aid).policy.lastReset)
    ∧ (∀ (aid amt : Nat) (w : World),
      ((commitSpend aid amt w).agentCfg aid).policy.lastReset
        = (w.agentCfg aid).policy.lastReset)
    ∧ (∀ (s now aid m amt : Nat) (d : List Nat) (mc : MCall) (w : World),
      (∀ mm dd ww, ((mc mm dd ww).2.agentCfg aid).policy.lastReset
        = ((ww : World).agentCfg aid).policy.lastReset) →
      now < (w.agentCfg aid).policy.lastReset + SECONDS_PER_DAY →
      (((applyOp (.pay s now aid m amt d mc) w).1).agentCfg aid).policy.lastReset
        = (w.agentCfg aid).policy.lastReset) := by
  refine ⟨?_, ?_, ?_, ?_, ?_, ?_, ?_, ?_⟩
  · intro now aid w h
    exact resetIfNeeded_due now aid w h
  · intro now aid w h
    exact resetIfNeeded_not_due now aid w h
  · intro now1 now2 aid w h1 h2
    rw [resetIfNeeded_not_due now1 aid w h1, resetIfNeeded_not_due now2 aid w h2]
  · intro now aid m amt d mc w
    rfl
  · intro s n aid dl pt w hex hown hdl hpt hle
    exact updateLimits_success_eq s n aid dl pt w hex hown hdl hpt hle
  · intro aid dl pt w
    exact (applyNewLimits_policy aid dl pt w).2.2.2.1
  · intro aid amt w
    exact commitSpend_lastReset aid amt w
  · intro s now aid m amt d mc w hmc hwin
    cases hres : Op.inner (.pay s now aid m amt d mc) w with
    | error e => simp [applyOp, hres]
    | ok w' =>
      have h1 : (applyOp (.pay s now aid m amt d mc) w).1 = w' := by simp [applyOp, hres]
      rw [h1]
      exact pay_ok_lastReset s now aid m amt d mc w w' hmc hwin hres

/-- C6 witness: at `now = 86500` the concrete agent's window (started at 100)
is due; the reset zeroes the accrued spend, restamps the window start and
emits the reset event. -/
theorem daily_window_reset_witness :
    ((resetIfNeeded 86500 1 Wbase).agentCfg 1).policy.spentToday = 0
    ∧ ((resetIfNeeded 86500 1 Wbase).agentCfg 1).policy.lastReset = 86500 % UINT64_MOD
    ∧ (resetIfNeeded 86500 1 Wbase).events = Wbase.events ++ [Event.DailySpendReset 1] := by
  exact daily_window_reset.1 86500 1 Wbase (by decide)

/-! ### C1: the policy invariant over all reachable states -/

theorem policyOK_of_inv (w : World) (aid : Nat) (hInv : PolicyInv w)
    (hown : (w.agentCfg aid).owner ≠ 0) : policyOK (w.agentCfg aid).policy := by
  rcases getD_mem w.agents aid AgentConfig.zero with hmem | hdef
  · exact hInv _ hmem hown
  · exfalso
    apply hown
    show (getD w.agents aid AgentConfig.zero).owner = 0
    rw [hdef]
    rfl

theorem policyInv_agents_eq (w w' : World) (h : w'.agents = w.agents) (hInv : PolicyInv w) :
    PolicyInv w' := by
  intro pr hpr hown
  rw [h] at hpr
  exact hInv pr hpr hown

theorem grantWorld_agents (m amt : Nat) (w : World) : (grantWorld m amt w).agents = w.agents := by
  simp only [grantWorld, revokeStale]
  split <;> rfl

theorem policyInv_resetIfNeeded (now aid : Nat) (w : World) (hInv : PolicyInv w) :
    PolicyInv (resetIfNeeded now aid w) := by
  simp only [resetIfNeeded]
  split
  · intro pr hpr hown
    simp only [World.emit] at hpr
    rcases mem_setK _ _ _ _ hpr with rfl | hmem
    · have hok := policyOK_of_inv w aid hInv hown
      unfold policyOK at hok ⊢
      exact ⟨hok.1, hok.2.1, hok.2.2.1, Nat.zero_le _⟩
    · exact hInv pr hmem hown
  · exact hInv

theorem policyInv_commitSpend (aid amt : Nat) (w : World) (hInv : PolicyInv w)
    (hdl : (w.agentCfg aid).policy.spentToday + amt ≤ (w.agentCfg aid).policy.dailyLimit) :
    PolicyInv (commitSpend aid amt w) := by
  intro pr hpr hown
  simp only [commitSpend] at hpr
  rcases mem_setK _ _ _ _ hpr with rfl | hmem
  · have hok := policyOK_of_inv w aid hInv hown
    unfold policyOK at hok ⊢
    exact ⟨hok.1, hok.2.1, hok.2.2.1, hdl⟩
  · exact hInv pr hmem hown

theorem policyInv_applyNewLimits (aid dl pt : Nat) (w : World) (hInv : PolicyInv w)
    (hdl : dl ≠ 0) (hpt : pt ≠ 0) (hle : pt ≤ dl) : PolicyInv (applyNewLimits aid dl pt w) := by
  intro pr hpr hown
  simp only [applyNewLimits, World.emit] at hpr
  rcases mem_setK _ _ _ _ hpr with rfl | hmem
  · unfold policyOK
    split
    · exact ⟨Nat.pos_of_ne_zero hdl, Nat.pos_of_ne_zero hpt, hle, Nat.le_refl dl⟩
    · next hlt => exact ⟨Nat.pos_of_ne_zero hdl, Nat.pos_of_ne_zero hpt, hle, Nat.not_lt.mp hlt⟩
  · exact hInv pr hmem hown

theorem settleDirect_proj (m amt : Nat) (w w' : World) (h : settleDirect m amt w = .ok w') :
    w'.agents = w.agents ∧ w'.nextAgentId = w.nextAgentId := by
  simp only [settleDirect] at h
  repeat' split at h
  all_goals try exact Except.noConfusion h
  injection h with h
  subst h
  exact ⟨rfl, rfl⟩

theorem policyInv_processPaymentChecked (now aid m amt : Nat) (d : List Nat) (mc : MCall)
    (w w' : World) (hInv : PolicyInv w) (hmc : MPreservesPolicyInv mc)
    (h : processPaymentChecked now aid m amt d mc w = .ok w') : PolicyInv w' := by
  simp only [processPaymentChecked] at h
  repeat' split at h
  all_goals try exact Except.noConfusion h
  injection h with h
  subst h
  rename_i w1 heq
  have hdl : (w.agentCfg aid).policy.spentToday + amt ≤ (w.agentCfg aid).policy.dailyLimit :=
    Nat.not_lt.mp (by assumption)
  have hc : PolicyInv (commitSpend aid amt w) := policyInv_commitSpend aid amt w hInv hdl
  have hw1 : PolicyInv w1 := by
    by_cases hd : d.length = 0
    · rw [if_pos hd] at heq
      exact policyInv_agents_eq _ _ (settleDirect_proj m amt _ _ heq).1 hc
    · rw [if_neg hd] at heq
      simp only [settleCallback] at heq
      split at heq
      · exact Except.noConfusion heq
      · injection heq with heq2
        subst heq2
        rename_i heq3
        have hg : PolicyInv (grantWorld m amt (commitSpend aid amt w)) :=
          policyInv_agents_eq _ _ (grantWorld_agents m amt _) hc
        have hres := hmc m d (grantWorld m amt (commitSpend aid amt w)) hg
        rw [heq3] at hres
        exact hres
  exact policyInv_agents_eq w1 _ rfl hw1

theorem policyInv_pay (s n aid m amt : Nat) (d : List Nat) (mc : MCall) (w w' : World)
    (hInv : PolicyInv w) (hmc : MPreservesPolicyInv mc)
    (h : pay s n aid m amt d mc w = .ok w') : PolicyInv w' := by
  simp only [pay, processPayment] at h
  repeat' split at h
  all_goals try exact Except.noConfusion h
  injection h with h
  subst h
  rename_i w1 heq
  have hr : PolicyInv (resetIfNeeded n aid { w with status := 2 }) :=
    policyInv_resetIfNeeded n aid _ (policyInv_agents_eq _ _ rfl hInv)
  have hw1 := policyInv_processPaymentChecked n aid m amt d mc _ w1 hr hmc heq
  exact policyInv_agents_eq w1 _ rfl hw1

theorem policyInv_executeSubscription (s n aid sid : Nat) (d : List Nat) (mc : MCall)
    (w w' : World) (hInv : PolicyInv w) (hmc : MPreservesPolicyInv mc)
    (h : executeSubscription s n aid sid d mc w = .ok w') : PolicyInv w' := by
  simp only [executeSubscription, processPayment] at h
  repeat' split at h
  all_goals try exact Except.noConfusion h
  injection h with h
  subst h
  rename_i w2 heq
  have hr : PolicyInv (resetIfNeeded n aid (advanceSub n aid sid w)) :=
    policyInv_resetIfNeeded n aid _ (policyInv_agents_eq _ w (by simp [advanceSub]) hInv)
  have hw2 := policyInv_processPaymentChecked n aid _ _ d mc _ w2 (by exact hr) hmc (by exact heq)
  exact policyInv_agents_eq w2 _ rfl hw2

theorem policyInv_step (w : World) (op : Op) (hInv : PolicyInv w) (hok : OpOKForPolicy op) :
    PolicyInv (stepWorld w op) := by
  cases hres : Op.inner op w with
  | error e =>
    have h1 : stepWorld w op = w := by simp [stepWorld, applyOp, hres]
    rw [h1]
    exact hInv
  | ok w' =>
    have h1 : stepWorld w op = w' := by simp [stepWorld, applyOp, hres]
    rw [h1]
    cases op with
    | createAgent s n a dl pt =>
      obtain ⟨hs, hn, hag, ha0, hdl, hpt, hle⟩ := createAgent_ok_proj s n a dl pt w w' hres
      intro pr hpr hown
      rw [hag] at hpr
      rcases mem_setK _ _ _ _ hpr with rfl | hmem
      · unfold policyOK
        exact ⟨Nat.pos_of_ne_zero hdl, Nat.pos_of_ne_zero hpt, hle, Nat.zero_le _⟩
      · exact hInv pr hmem hown
    | setAgentAddress s aid na =>
      obtain ⟨hs, hn, hag⟩ := setAgentAddress_ok_proj s aid na w w' hres
      intro pr hpr hown
      rw [hag] at hpr
      rcases mem_setK _ _ _ _ hpr with rfl | hmem
      · exact policyOK_of_inv w aid hInv hown
      · exact hInv pr hmem hown
    | deposit s aid amt =>
      exact policyInv_agents_eq _ _ (deposit_ok_proj s aid amt w w' hres).2.2 hInv
    | withdraw s aid amt =>
      exact policyInv_agents_eq _ _ (withdraw_ok_proj s aid amt w w' hres).2.2 hInv
    | emergencyWithdraw s aid =>
      exact policyInv_agents_eq _ _ (emergencyWithdraw_ok_proj s aid w w' hres).2.2 hInv
    | setPolicyActive s aid b =>
      obtain ⟨hs, hn, hag⟩ := setPolicyActive_ok_proj s aid b w w' hres
      intro pr hpr hown
      rw [hag] at hpr
      rcases mem_setK _ _ _ _ hpr with rfl | hmem
      · exact policyOK_of_inv w aid hInv hown
      · exact hInv pr hmem hown
    | updateLimits s n aid dl pt =>
      obtain ⟨heq, hdl, hpt, hle⟩ := updateLimits_ok_char s n aid dl pt w w' hres
      subst heq
      exact policyInv_applyNewLimits aid dl pt _ (policyInv_resetIfNeeded n aid w hInv) hdl hpt hle
    | setMerchantWhitelist s aid m b =>
      exact policyInv_agents_eq _ _ (setMerchantWhitelist_ok_proj s aid m b w w' hres).2.2 hInv
    | pay s n aid m amt d mc =>
      exact policyInv_pay s n aid m amt d mc w w' hInv hok hres
    | createSubscription s n aid m app ps fe =>
      exact policyInv_agents_eq _ _ (createSubscription_ok_proj s n aid m app ps fe w w' hres).2.2 hInv
    | setSubscriptionStatus s aid sid b =>
      exact policyInv_agents_eq _ _ (setSubscriptionStatus_ok_proj s aid sid b w w' hres).2.2 hInv
    | executeSubscription s n aid sid d mc =>
      exact policyInv_executeSubscription s n aid sid d mc w w' hInv hok hres

theorem policyInv_runOps (ops : List Op) (w : World) (hInv : PolicyInv w)
    (hops : ∀ op ∈ ops, OpOKForPolicy op) : PolicyInv (runOps ops w) := by
  induction ops generalizing w with
  | nil => simpa [runOps] using hInv
  | cons op l ih =>
    have h1 : runOps (op :: l) w = runOps l (stepWorld w op) := by simp [runOps, List.foldl]
    rw [h1]
    exact ih (stepWorld w op) (policyInv_step w op hInv (hops op (by simp)))
      (fun o ho => hops o (by simp [ho]))

/-- C1: starting from deployment, after every sequence of committed
operations (callbacks assumed policy-invariant-preserving, as real callbacks
are: they can only touch wallet state through the public operations), every
stored agent satisfies `spentToday ≤ dailyLimit`, `perTxLimit ≤ dailyLimit`
and strict positivity of both limits. -/
theorem agent_policy_invariant (self deployer : Addr) (tok : ERC20) (ops : List Op)
    (hops : ∀ op ∈ ops, OpOKForPolicy op) :
    PolicyInv (runOps ops (initialState self deployer tok)) := by
  apply policyInv_runOps ops _ _ hops
  intro pr hpr
  simp [initialState] at hpr

/-- C1 witness: a concrete run — create an agent, deposit, pay, tighten
limits — ends in a state satisfying the policy invariant. -/
theorem agent_policy_invariant_witness :
    PolicyInv (runOps [Op.createAgent 7 0 5 1000 500, Op.setPolicyActive 7 1 false]
      (initialState 1 9 tokBase)) := by
  apply agent_policy_invariant
  intro op hop
  fin_cases hop <;> trivial

/-! ### C10: agent id allocation -/

theorem idsOK_agents_eq (w w' : World) (ha : w'.agents = w.agents)
    (hn : w'.nextAgentId = w.nextAgentId) (hIds : AgentIdsOK w) : AgentIdsOK w' := by
  intro id
  unfold World.agentCfg
  rw [ha, hn]
  exact hIds id

theorem idsOK_setK_owner_eq (w : World) (aid : Nat) (cfg : AgentConfig)
    (howner : cfg.owner = (w.agentCfg aid).owner) (hIds : AgentIdsOK w) (w' : World)
    (ha : w'.agents = setK w.agents aid cfg) (hn : w'.nextAgentId = w.nextAgentId) :
    AgentIdsOK w' := by
  intro id
  unfold World.agentCfg
  rw [ha, hn]
  by_cases hid : id = aid
  · subst hid
    rw [getD_setK_same, howner]
    exact hIds id
  · rw [getD_setK_ne _ _ _ _ _ hid]
    exact hIds id

theorem commitSpend_owner (aid amt a : Nat) (w : World) :
    ((commitSpend aid amt w).agentCfg a).owner = (w.agentCfg a).owner := by
  simp only [commitSpend, World.agentCfg]
  by_cases ha : a = aid
  · subst ha
    rw [getD_setK_same]
  · rw [getD_setK_ne _ _ _ _ _ ha]

theorem commitSpend_nextAgentId (aid amt : Nat) (w : World) :
    (commitSpend aid amt w).nextAgentId = w.nextAgentId := by
  simp only [commitSpend]

theorem applyNewLimits_owner (aid dl pt a : Nat) (w : World) :
    ((applyNewLimits aid dl pt w).agentCfg a).owner = (w.agentCfg a).owner := by
  simp only [applyNewLimits, World.emit, World.agentCfg]
  by_cases ha : a = aid
  · subst ha
    rw [getD_setK_same]
  · rw [getD_setK_ne _ _ _ _ _ ha]

theorem applyNewLimits_nextAgentId (aid dl pt : Nat) (w : World) :
    (applyNewLimits aid dl pt w).nextAgentId = w.nextAgentId := by
  simp only [applyNewLimits, World.emit]

theorem grantWorld_nextAgentId (m amt : Nat) (w : World) :
    (grantWorld m amt w).nextAgentId = w.nextAgentId := by
  simp only [grantWorld, revokeStale]
  split <;> rfl

theorem idsOK_resetIfNeeded (now aid : Nat) (w : World) (hIds : AgentIdsOK w) :
    AgentIdsOK (resetIfNeeded now aid w) := by
  intro id
  rw [resetIfNeeded_owner now aid id w, resetIfNeeded_nextAgentId]
  exact hIds id

theorem idsOK_commitSpend (aid amt : Nat) (w : World) (hIds : AgentIdsOK w) :
    AgentIdsOK (commitSpend aid amt w) := by
  intro id
  rw [commitSpend_owner aid amt id w, commitSpend_nextAgentId]
  exact hIds id

theorem idsOK_createAgent (s n a dl pt : Nat) (w w' : World) (hs : s ≠ 0)
    (hIds : AgentIdsOK w) (h : createAgent s n a dl pt w = .ok w') : AgentIdsOK w' := by
  obtain ⟨hst, hn, hag, ha0, _, _, _⟩ := createAgent_ok_proj s n a dl pt w w' h
  intro id
  unfold World.agentCfg
  rw [hag, hn]
  by_cases hid : id = w.nextAgentId + 1
  · subst hid
    rw [getD_setK_same]
    constructor
    · intro _
      omega
    · intro _
      exact hs
  · rw [getD_setK_ne _ _ _ _ _ hid]
    have hold := hIds id
    unfold World.agentCfg at hold
    constructor
    · intro hown
      have := hold.mp hown
      omega
    · intro hrange
      exact hold.mpr ⟨hrange.1, by omega⟩

theorem idsOK_processPaymentChecked (now aid m amt : Nat) (d : List Nat) (mc : MCall)
    (w w' : World) (hIds : AgentIdsOK w) (hmc : MPreservesIds mc)
    (h : processPaymentChecked now aid m amt d mc w = .ok w') : AgentIdsOK w' := by
  simp only [processPaymentChecked] at h
  repeat' split at h
  all_goals try exact Except.noConfusion h
  injection h with h
  subst h
  rename_i w1 heq
  have hc : AgentIdsOK (commitSpend aid amt w) := idsOK_commitSpend aid amt w hIds
  have hw1 : AgentIdsOK w1 := by
    by_cases hd : d.length = 0
    · rw [if_pos hd] at heq
      obtain ⟨ha, hn⟩ := settleDirect_proj m amt _ _ heq
      exact idsOK_agents_eq _ _ ha hn hc
    · rw [if_neg hd] at heq
      simp only [settleCallback] at heq
      split at heq
      · exact Except.noConfusion heq
      · injection heq with heq2
        subst heq2
        rename_i heq3
        have hg : AgentIdsOK (grantWorld m amt (commitSpend aid amt w)) :=
          idsOK_agents_eq _ _ (grantWorld_agents m amt _) (grantWorld_nextAgentId m amt _) hc
        have hres := hmc m d (grantWorld m amt (commitSpend aid amt w)) hg
        rw [heq3] at hres
        exact hres
  exact idsOK_agents_eq w1 _ rfl rfl hw1

theorem idsOK_pay (s n aid m amt : Nat) (d : List Nat) (mc : MCall) (w w' : World)
    (hIds : AgentIdsOK w) (hmc : MPreservesIds mc)
    (h : pay s n aid m amt d mc w = .ok w') : AgentIdsOK w' := by
  simp only [pay, processPayment] at h
  repeat' split at h
  all_goals try exact Except.noConfusion h
  injection h with h
  subst h
  rename_i w1 heq
  have hr : AgentIdsOK (resetIfNeeded n aid { w with status := 2 }) :=
    idsOK_resetIfNeeded n aid _ (idsOK_agents_eq _ _ rfl rfl hIds)
  have hw1 := idsOK_processPaymentChecked n aid m amt d mc _ w1 hr hmc heq
  exact idsOK_agents_eq w1 _ rfl rfl hw1

theorem idsOK_executeSubscription (s n aid sid : Nat) (d : List Nat) (mc : MCall)
    (w w' : World) (hIds : AgentIdsOK w) (hmc : MPreservesIds mc)
    (h : executeSubscription s n aid sid d mc w = .ok w') : AgentIdsOK w' := by
  simp only [executeSubscription, processPayment] at h
  repeat' split at h
  all_goals try exact Except.noConfusion h
  injection h with h
  subst h
  rename_i w2 heq
  have hr : AgentIdsOK (resetIfNeeded n aid (advanceSub n aid sid w)) :=
    idsOK_resetIfNeeded n aid _ (idsOK_agents_eq _ w (by simp [advanceSub]) (by simp [advanceSub]) hIds)
  have hw2 := idsOK_processPaymentChecked n aid _ _ d mc _ w2 (by exact hr) hmc (by exact heq)
  exact idsOK_agents_eq w2 _ rfl rfl hw2

theorem idsOK_step (w : World) (op : Op) (hIds : AgentIdsOK w) (hok : OpOKForIds op) :
    AgentIdsOK (stepWorld w op) := by
  cases hres : Op.inner op w with
  | error e =>
    have h1 : stepWorld w op = w := by simp [stepWorld, applyOp, hres]
    rw [h1]
    exact hIds
  | ok w' =>
    have h1 : stepWorld w op = w' := by simp [stepWorld, applyOp, hres]
    rw [h1]
    cases op with
    | createAgent s n a dl pt => exact idsOK_createAgent s n a dl pt w w' hok hIds hres
    | setAgentAddress s aid na =>
      obtain ⟨hs, hn, hag⟩ := setAgentAddress_ok_proj s aid na w w' hres
      exact idsOK_setK_owner_eq w aid { w.agentCfg aid with agent := na } rfl hIds w' hag hn
    | deposit s aid amt =>
      obtain ⟨hs, hn, hag⟩ := deposit_ok_proj s aid amt w w' hres
      exact idsOK_agents_eq _ _ hag hn hIds
    | withdraw s aid amt =>
      obtain ⟨hs, hn, hag⟩ := withdraw_ok_proj s aid amt w w' hres
      exact idsOK_agents_eq _ _ hag hn hIds
    | emergencyWithdraw s aid =>
      obtain ⟨hs, hn, hag⟩ := emergencyWithdraw_ok_proj s aid w w' hres
      exact idsOK_agents_eq _ _ hag hn hIds
    | setPolicyActive s aid b =>
      obtain ⟨hs, hn, hag⟩ := setPolicyActive_ok_proj s aid b w w' hres
      exact idsOK_setK_owner_eq w aid
        { w.agentCfg aid with policy := { (w.agentCfg aid).policy with active := b } }
        rfl hIds w' hag hn
    | updateLimits s n aid dl pt =>
      obtain ⟨heq, hdl, hpt, hle⟩ := updateLimits_ok_char s n aid dl pt w w' hres
      subst heq
      intro id
      rw [applyNewLimits_owner, applyNewLimits_nextAgentId, resetIfNeeded_owner,
        resetIfNeeded_nextAgentId]
      exact hIds id
    | setMerchantWhitelist s aid m b =>
      obtain ⟨hs, hn, hag⟩ := setMerchantWhitelist_ok_proj s aid m b w w' hres
      exact idsOK_agents_eq _ _ hag hn hIds
    | pay s n aid m amt d mc => exact idsOK_pay s n aid m amt d mc w w' hIds hok hres
    | createSubscription s n aid m app ps fe =>
      obtain ⟨hs, hn, hag⟩ := createSubscription_ok_proj s n aid m app ps fe w w' hres
      exact idsOK_agents_eq _ _ hag hn hIds
    | setSubscriptionStatus s aid sid b =>
      obtain ⟨hs, hn, hag⟩ := setSubscriptionStatus_ok_proj s aid sid b w w' hres
      exact idsOK_agents_eq _ _ hag hn hIds
    | executeSubscription s n aid sid d mc =>
      exact idsOK_executeSubscription s n aid sid d mc w w' hIds hok hres

theorem idsOK_runOps (ops : List Op) (w : World) (hIds : AgentIdsOK w)
    (hops : ∀ op ∈ ops, OpOKForIds op) : AgentIdsOK (runOps ops w) := by
  induction ops generalizing w with
  | nil => simpa [runOps] using hIds
  | cons op l ih =>
    have h1 : runOps (op :: l) w = runOps l (stepWorld w op) := by simp [runOps, List.foldl]
    rw [h1]
    exact ih (stepWorld w op) (idsOK_step w op hIds (hops op (by simp)))
      (fun o ho => hops o (by simp [ho]))

/-- C10: agent ids are allocated by pre-increment starting from 1.  After any
sequence of operations from deployment in which `createAgent` callers are
non-null identities (and callbacks preserve the allocation invariant, as real
callbacks do), a stored record has a non-null owner exactly for the ids
`1..nextAgentId`; id 0 never denotes an agent, and every read accessor
applied to id 0 fails with `AgentNotFound`. -/
theorem agent_ids_allocation (self deployer : Addr) (tok : ERC20) (ops : List Op)
    (hops : ∀ op ∈ ops, OpOKForIds op) :
    AgentIdsOK (runOps ops (initialState self deployer tok))
    ∧ agentView 0 (runOps ops (initialState self deployer tok)) = .error .AgentNotFound
    ∧ balanceOfView 0 (runOps ops (initialState self deployer tok)) = .error .AgentNotFound
    ∧ (∀ m, isMerchantWhitelistedView 0 m (runOps ops (initialState self deployer tok))
        = .error .AgentNotFound)
    ∧ (∀ n, spentTodayView n 0 (runOps ops (initialState self deployer tok))
        = .error .AgentNotFound)
    ∧ (∀ sid, subscriptionView 0 sid (runOps ops (initialState self deployer tok))
        = .error .AgentNotFound)
    ∧ nextSubscriptionIdView 0 (runOps ops (initialState self deployer tok))
        = .error .AgentNotFound := by
  have hinit : AgentIdsOK (initialState self deployer tok) := by
    intro id
    constructor
    · intro hown
      exfalso
      apply hown
      rfl
    · intro hrange
      exfalso
      have hz : (initialState self deployer tok).nextAgentId = 0 := rfl
      omega
  have hIds := idsOK_runOps ops _ hinit hops
  have h0 : ((runOps ops (initialState self deployer tok)).agentCfg 0).owner = 0 := by
    by_contra h0
    have := (hIds 0).mp h0
    omega
  refine ⟨hIds, ?_, ?_, ?_, ?_, ?_, ?_⟩
  · simp [agentView, h0]
  · simp [balanceOfView, h0]
  · intro m
    simp [isMerchantWhitelistedView, h0]
  · intro n
    simp [spentTodayView, h0]
  · intro sid
    simp [subscriptionView, h0]
  · simp [nextSubscriptionIdView, h0]

/-- C10 witness: after one creation by the non-null identity 7, the
allocation invariant holds (agent 1 exists, id 0 does not) and the `agent`
accessor at id 0 fails with `AgentNotFound`. -/
theorem agent_ids_allocation_witness :
    AgentIdsOK (runOps [Op.createAgent 7 0 5 1000 500] (initialState 1 9 tokBase))
    ∧ agentView 0 (runOps [Op.createAgent 7 0 5 1000 500] (initialState 1 9 tokBase))
        = .error .AgentNotFound := by
  have h := agent_ids_allocation 1 9 tokBase [Op.createAgent 7 0 5 1000 500] ?hops
  · exact ⟨h.1, h.2.1⟩
  · intro op hop
    fin_cases hop
    simp only [OpOKForIds]
    decide

/-! ### C2: failure atomicity -/

/-- C2: for every public operation and starting state, a failing call (any
error kind, including a settlement failure after the step-7 commit) commits
nothing: the state after the transaction is exactly the state before it. -/
theorem op_failure_atomic (op : Op) (w : World) (e : Err)
    (h : (applyOp op w).2 = some e) : (applyOp op w).1 = w := by
  unfold applyOp at h ⊢
  cases hres : Op.inner op w with
  | ok w' => rw [hres] at h; exact Option.noConfusion h
  | error e' => rfl

/-- C2 witness: a deposit against an unknown agent id fails with
`AgentNotFound` and leaves the state unchanged. -/
theorem op_failure_atomic_witness :
    (applyOp (.deposit 1 2 5) Wbase).2 = some .AgentNotFound
    ∧ (applyOp (.deposit 1 2 5) Wbase).1 = Wbase := by
  exact ⟨by decide, op_failure_atomic _ _ .AgentNotFound (by decide)⟩

end AgentWallet
